import Mathlib

/-!
# Baldwin County News Hub — shallow embedding and verification

This file embeds the core of the news-aggregator repository
(`BaseScraper`, `RSSScraper`, `CheerioScraper`, `NitterScraper`,
`ScraperManager`, the `Article` model and the SQL schema) as executable
Lean definitions, and proves or refutes the specification's claims about
them.
-/

set_option maxRecDepth 8192

namespace Baldwin

/-! ## Normalizer: `BaseScraper.categorizeArticle`

The source tests the lower-cased concatenation `title ++ " " ++ excerpt`
against a fixed sequence of regexes.  Every regex in the source is a plain
alternation of literal words, so each test is "text contains one of these
substrings". -/

/-- Contiguous-substring containment on character lists. -/
def containsSub (p : List Char) : List Char → Bool
  | [] => p.isEmpty
  | c :: rest => p.isPrefixOf (c :: rest) || containsSub p rest

/-- Substring containment on strings (the effect of testing a literal
regex word against a text). -/
def containsKw (text kw : String) : Bool :=
  containsSub kw.toList text.toList

/-- JavaScript's `String.prototype.toLowerCase` restricted to the ASCII
range, modelled character-wise (all the keyword rules are ASCII). -/
def jsToLower (s : String) : String :=
  String.mk (s.data.map Char.toLower)

/-- JavaScript `s === ''` / falsiness of a string, on the character
list (kernel-evaluable). -/
def strIsEmpty (s : String) : Bool :=
  s.data.isEmpty

/-- JavaScript `s.startsWith(p)`, on the character lists. -/
def strStartsWith (s p : String) : Bool :=
  p.data.isPrefixOf s.data

/-- Whether `text` matches an alternation of literal keywords, as the
source's regex tests do. -/
def matchesAny (kws : List String) (text : String) : Bool :=
  kws.any (containsKw text)

def weatherKws : List String :=
  ["weather", "storm", "hurricane", "flood", "tornado", "forecast"]

def politicsKws : List String :=
  ["election", "council", "mayor", "government", "vote", "policy", "bill"]

def sportsKws : List String :=
  ["football", "basketball", "baseball", "sports", "game", "team", "player"]

def educationKws : List String :=
  ["school", "education", "student", "teacher", "university", "college"]

def tourismKws : List String :=
  ["beach", "tourism", "visitor", "hotel", "resort", "festival"]

def developmentKws : List String :=
  ["development", "construction", "zoning", "building", "property"]

/-- `BaseScraper.categorizeArticle(title, excerpt)`: lower-cases
`title + " " + excerpt` and returns the first matching category, default
`"local"`. -/
def categorizeArticle (title excerpt : String) : String :=
  let text := jsToLower (title ++ " " ++ excerpt)
  if matchesAny weatherKws text then "weather"
  else if matchesAny politicsKws text then "politics"
  else if matchesAny sportsKws text then "sports"
  else if matchesAny educationKws text then "education"
  else if matchesAny tourismKws text then "tourism"
  else if matchesAny developmentKws text then "development"
  else "local"

/-! ## Article model: `Article.create` (upsert-by-URL) and the
`articles` table of the SQL schema.

Timestamps are modelled as `Nat` (`NOW()` is passed in as `now`).  The
`articles` table has a `SERIAL` primary key (`nextId`) and a `UNIQUE`
constraint on `url`; `Article.create` runs
`INSERT ... ON CONFLICT (url) DO UPDATE SET title, excerpt, content,
updated_at = NOW()`. -/

/-- The argument record passed to `Article.create` by the scrapers. -/
structure ArticleData where
  source_id : Option Nat
  title : String
  excerpt : Option String
  content : Option String
  url : String
  author : Option String
  category : Option String
  content_type : String
  platform : Option String
  image_url : Option String
  published_at : Option Nat
deriving Repr, DecidableEq

/-- One row of the `articles` table. -/
structure ArticleRow where
  id : Nat
  source_id : Option Nat
  title : String
  excerpt : Option String
  content : Option String
  url : String
  author : Option String
  category : Option String
  content_type : String
  platform : Option String
  image_url : Option String
  published_at : Option Nat
  scraped_at : Nat
  created_at : Nat
  updated_at : Nat
deriving Repr, DecidableEq

/-- The `articles` table (`nextId` models the `SERIAL` id sequence). -/
structure ArticlesTable where
  rows : List ArticleRow
  nextId : Nat
deriving Repr, DecidableEq

/-- The row built by a plain `INSERT` (the `DEFAULT NOW()` columns get
`now`). -/
def ArticleData.toRow (d : ArticleData) (id now : Nat) : ArticleRow :=
  { id := id, source_id := d.source_id, title := d.title,
    excerpt := d.excerpt, content := d.content, url := d.url,
    author := d.author, category := d.category,
    content_type := d.content_type, platform := d.platform,
    image_url := d.image_url, published_at := d.published_at,
    scraped_at := now, created_at := now, updated_at := now }

/-- `Article.create(articleData)`:
`INSERT INTO articles ... ON CONFLICT (url) DO UPDATE SET
title = EXCLUDED.title, excerpt = EXCLUDED.excerpt,
content = EXCLUDED.content, updated_at = NOW()`. -/
def Article.create (tbl : ArticlesTable) (d : ArticleData) (now : Nat) :
    ArticlesTable :=
  if tbl.rows.any (fun r => r.url == d.url) then
    { tbl with
      rows := tbl.rows.map fun r =>
        if r.url == d.url then
          { r with title := d.title, excerpt := d.excerpt,
                   content := d.content, updated_at := now }
        else r }
  else
    { rows := tbl.rows ++ [d.toRow tbl.nextId now],
      nextId := tbl.nextId + 1 }

/-- Sample first observation of an article, for the C1 witness. -/
def d1ex : ArticleData :=
  { source_id := none, title := "First title", excerpt := some "e1",
    content := some "c1", url := "https://x.com/a", author := none,
    category := none, content_type := "news", platform := none,
    image_url := none, published_at := none }

/-- Sample second observation of the same URL, for the C1 witness. -/
def d2ex : ArticleData :=
  { d1ex with
    title := "Second title",
    excerpt := some "e2",
    content := some "c2" }

/-! ## Scrape orchestrator: `ScraperManager`

`ScraperManager` holds a `Map` from source id to scraper, a process-wide
`isRunning` flag, and writes per-source rows into `scrape_logs`.  A
scraper's `scrape()` call either resolves with a list of articles or
rejects with an error; for the orchestrator only the article count, the
error message and the wall-clock duration of the call are observable, so
a scraper is embedded as that triple. -/

deriving instance DecidableEq for Except

/-- Observable behaviour of one scraper's `scrape()` call. -/
structure ScraperBehavior where
  sourceName : String
  outcome : Except String Nat
  duration : Nat
deriving Repr, DecidableEq

/-- One entry of `results.details`. -/
structure Detail where
  source : String
  status : String
  articles : Nat
  duration : Nat
  error : Option String
deriving Repr, DecidableEq

/-- One row of the `scrape_logs` table, as written by
`ScraperManager.logScrape`. -/
structure LogRow where
  sourceId : Nat
  status : String
  articlesFound : Nat
  durationMs : Nat
  errorMessage : Option String
deriving Repr, DecidableEq

/-- The `results` object built by `scrapeAll` / `scrapeSelected`. -/
structure RunResults where
  total : Nat
  successful : Nat
  failed : Nat
  articles : Nat
  details : List Detail
  timedOut : Bool
deriving Repr, DecidableEq

/-- The initial `results` object (`timedOut` is absent, i.e. falsy). -/
def RunResults.init (total : Nat) : RunResults :=
  { total := total, successful := 0, failed := 0, articles := 0,
    details := [], timedOut := false }

/-- `ScraperManager` state: the scraper map (insertion-ordered), the
single-flight flag and the `scrape_logs` table. -/
structure ManagerState where
  scrapers : List (Nat × ScraperBehavior)
  isRunning : Bool
  logs : List LogRow
deriving Repr, DecidableEq

/-- JavaScript truthiness of an optional numeric option — `undefined`
and `0` are falsy (`if (timeout)`, `if (maxArticles && ...)`). -/
def jsTruthy : Option Nat → Bool
  | none => false
  | some n => n != 0

/-- The cap test `maxArticles && results.articles >= maxArticles`. -/
def capHit (maxArticles : Option Nat) (articles : Nat) : Bool :=
  match maxArticles with
  | none => false
  | some m => m != 0 && decide (m ≤ articles)

/-- The `for` loop of `scrapeSelected`, with the missing-scraper branch
(`failed++; continue`), the success/error branches, the max-article break
(which fires before that source's detail entry and `scrape_logs` row are
written) and the per-source ledger writes.  Returns the `results`
object, the `scrape_logs` rows in write order, and the source ids left
unattempted when the loop exits. -/
def selLoop (st : ManagerState) (maxArticles : Option Nat) :
    List Nat → RunResults → List LogRow →
      RunResults × List LogRow × List Nat
  | [], acc, logs => (acc, logs, [])
  | id :: rest, acc, logs =>
    match List.lookup id st.scrapers with
    | none =>
      selLoop st maxArticles rest
        { acc with failed := acc.failed + 1 } logs
    | some sc =>
      match sc.outcome with
      | Except.ok n =>
        let acc1 :=
          if n > 0 then
            { acc with
              successful := acc.successful + 1,
              articles := acc.articles + n }
          else
            { acc with successful := acc.successful + 1 }
        if capHit maxArticles acc1.articles then
          (acc1, logs, rest)
        else
          selLoop st maxArticles rest
            { acc1 with
              details := acc1.details ++
                [⟨sc.sourceName, "success", n, sc.duration, none⟩] }
            (logs ++ [⟨id, "success", n, sc.duration, none⟩])
      | Except.error msg =>
        selLoop st maxArticles rest
          { acc with
            failed := acc.failed + 1,
            details := acc.details ++
              [⟨sc.sourceName, "error", 0, sc.duration, some msg⟩] }
          (logs ++ [⟨id, "error", 0, sc.duration, some msg⟩])

/-- The `for` loop of `scrapeAll` over the whole scraper map (no cap, no
timeout, every entry has a scraper). -/
def allLoop :
    List (Nat × ScraperBehavior) → RunResults → List LogRow →
      RunResults × List LogRow
  | [], acc, logs => (acc, logs)
  | (id, sc) :: rest, acc, logs =>
    match sc.outcome with
    | Except.ok n =>
      let acc1 :=
        if n > 0 then
          { acc with
            successful := acc.successful + 1,
            articles := acc.articles + n }
        else
          { acc with successful := acc.successful + 1 }
      allLoop rest
        { acc1 with
          details := acc1.details ++
            [⟨sc.sourceName, "success", n, sc.duration, none⟩] }
        (logs ++ [⟨id, "success", n, sc.duration, none⟩])
    | Except.error msg =>
      allLoop rest
        { acc with
          failed := acc.failed + 1,
          details := acc.details ++
            [⟨sc.sourceName, "error", 0, sc.duration, some msg⟩] }
        (logs ++ [⟨id, "error", 0, sc.duration, some msg⟩])

/-- The race of the `scrapeSelected` loop against the `timeout` timer.
Each source's processing occupies its scraper's `duration`; a source
whose processing would finish after the timer fires is not observed, the
timer rejection is caught, the partial `results` get `timedOut := true`
and are returned as they stand. -/
def selLoopTimed (st : ManagerState) (maxArticles : Option Nat)
    (timeoutMs : Nat) :
    List Nat → RunResults → List LogRow → Nat →
      RunResults × List LogRow × List Nat
  | [], acc, logs, _ => (acc, logs, [])
  | id :: rest, acc, logs, elapsed =>
    match List.lookup id st.scrapers with
    | none =>
      selLoopTimed st maxArticles timeoutMs rest
        { acc with failed := acc.failed + 1 } logs elapsed
    | some sc =>
      if timeoutMs < elapsed + sc.duration then
        ({ acc with timedOut := true }, logs, id :: rest)
      else
        match sc.outcome with
        | Except.ok n =>
          let acc1 :=
            if n > 0 then
              { acc with
                successful := acc.successful + 1,
                articles := acc.articles + n }
            else
              { acc with successful := acc.successful + 1 }
          if capHit maxArticles acc1.articles then
            (acc1, logs, rest)
          else
            selLoopTimed st maxArticles timeoutMs rest
              { acc1 with
                details := acc1.details ++
                  [⟨sc.sourceName, "success", n, sc.duration, none⟩] }
              (logs ++ [⟨id, "success", n, sc.duration, none⟩])
              (elapsed + sc.duration)
        | Except.error msg =>
          selLoopTimed st maxArticles timeoutMs rest
            { acc with
              failed := acc.failed + 1,
              details := acc.details ++
                [⟨sc.sourceName, "error", 0, sc.duration, some msg⟩] }
            (logs ++ [⟨id, "error", 0, sc.duration, some msg⟩])
            (elapsed + sc.duration)

/-- Reply of the orchestrator's run entry points: either the synchronous
`{ success: false, message: 'Scraping already in progress' }` rejection,
or the completed run's results. -/
inductive ScrapeReply where
  | busy : ScrapeReply
  | done : RunResults → ScrapeReply
deriving Repr, DecidableEq
/-- Options of `scrapeSelected`. -/

structure ScrapeOptions where
  timeout : Option Nat
  maxArticles : Option Nat
deriving Repr, DecidableEq

/-- `ScraperManager.scrapeAll()`: rejects synchronously while a run is
active, otherwise iterates every scraper, appends the per-source
`scrape_logs` rows and clears `isRunning` at the end. -/
def ScraperManager.scrapeAll (st : ManagerState) :
    ManagerState × ScrapeReply :=
  if st.isRunning then (st, ScrapeReply.busy)
  else
    let r := allLoop st.scrapers (RunResults.init st.scrapers.length) []
    ({ st with isRunning := false, logs := st.logs ++ r.2 },
      ScrapeReply.done r.1)

/-- `ScraperManager.scrapeSelected(sourceIds, options)`: rejects while a
run is active; otherwise runs the loop, racing it against the timer when
a (truthy) timeout is given. -/
def ScraperManager.scrapeSelected (st : ManagerState)
    (sourceIds : List Nat) (opts : ScrapeOptions) :
    ManagerState × ScrapeReply :=
  if st.isRunning then (st, ScrapeReply.busy)
  else
    let init := RunResults.init sourceIds.length
    let r :=
      if jsTruthy opts.timeout then
        selLoopTimed st opts.maxArticles (opts.timeout.getD 0)
          sourceIds init [] 0
      else
        selLoop st opts.maxArticles sourceIds init []
    ({ st with isRunning := false, logs := st.logs ++ r.2.1 },
      ScrapeReply.done r.1)

/-- Result of a successful `scrapeSingle`. -/
structure SingleResult where
  success : Bool
  source : String
  articles : Nat
deriving Repr, DecidableEq

/-- `ScraperManager.scrapeSingle(sourceId)`: looks the scraper up and
runs it; throws when the id is unknown or the scrape rejects.  Note: the
source contains no `isRunning` check on this path. -/
def ScraperManager.scrapeSingle (st : ManagerState) (sourceId : Nat) :
    ManagerState × Except String SingleResult :=
  match List.lookup sourceId st.scrapers with
  | none =>
    (st, Except.error ("No scraper found for source ID: " ++
      toString sourceId))
  | some sc =>
    match sc.outcome with
    | Except.ok n => (st, Except.ok ⟨true, sc.sourceName, n⟩)
    | Except.error msg => (st, Except.error msg)

/-! ### Derived views of a run, used to state the loop's behaviour -/

/-- Number of ids in a selection whose scraper resolves. -/
def okCount (st : ManagerState) : List Nat → Nat
  | [] => 0
  | id :: rest =>
    (match List.lookup id st.scrapers with
     | some sc =>
       match sc.outcome with
       | Except.ok _ => 1
       | Except.error _ => 0
     | none => 0) + okCount st rest

/-- Number of ids in a selection that count as failed: ids with no
registered scraper plus ids whose scraper rejects. -/
def failCount (st : ManagerState) : List Nat → Nat
  | [] => 0
  | id :: rest =>
    (match List.lookup id st.scrapers with
     | some sc =>
       match sc.outcome with
       | Except.ok _ => 0
       | Except.error _ => 1
     | none => 1) + failCount st rest

/-- Articles contributed by one source id. -/
def contrib (st : ManagerState) (id : Nat) : Nat :=
  match List.lookup id st.scrapers with
  | some sc =>
    match sc.outcome with
    | Except.ok n => n
    | Except.error _ => 0
  | none => 0

/-- Articles contributed by a list of source ids. -/
def contribSum (st : ManagerState) (ids : List Nat) : Nat :=
  (ids.map (contrib st)).sum

/-- The detail entry written for a scraper that was run. -/
def srcDetail (sc : ScraperBehavior) : Detail :=
  match sc.outcome with
  | Except.ok n => ⟨sc.sourceName, "success", n, sc.duration, none⟩
  | Except.error msg => ⟨sc.sourceName, "error", 0, sc.duration, some msg⟩

/-- The `scrape_logs` row written for a scraper that was run. -/
def srcLog (id : Nat) (sc : ScraperBehavior) : LogRow :=
  match sc.outcome with
  | Except.ok n => ⟨id, "success", n, sc.duration, none⟩
  | Except.error msg => ⟨id, "error", 0, sc.duration, some msg⟩

/-- Detail entries produced by a selection (ids with no scraper produce
none). -/
def selDetails (st : ManagerState) : List Nat → List Detail
  | [] => []
  | id :: rest =>
    (match List.lookup id st.scrapers with
     | some sc => [srcDetail sc]
     | none => []) ++ selDetails st rest

/-- `scrape_logs` rows produced by a selection (ids with no scraper
produce none). -/
def selLogs (st : ManagerState) : List Nat → List LogRow
  | [] => []
  | id :: rest =>
    (match List.lookup id st.scrapers with
     | some sc => [srcLog id sc]
     | none => []) ++ selLogs st rest

/-- Whether a source id resolves to a scraper whose scrape rejects. -/
def isErr (st : ManagerState) (id : Nat) : Bool :=
  match List.lookup id st.scrapers with
  | some sc =>
    match sc.outcome with
    | Except.ok _ => false
    | Except.error _ => true
  | none => false

/-- Whether a source id resolves to a scraper whose scrape resolves. -/
def isOk (st : ManagerState) (id : Nat) : Bool :=
  match List.lookup id st.scrapers with
  | some sc =>
    match sc.outcome with
    | Except.ok _ => true
    | Except.error _ => false
  | none => false

/-- A two-source manager (source 1 yields 5 articles, source 2 yields
one), not currently running, used for concrete instantiations. -/
def st1 : ManagerState :=
  ⟨[(1, ⟨"S1", Except.ok 5, 1⟩), (2, ⟨"S2", Except.ok 1, 1⟩)], false, []⟩

/-- The same manager while a run is active. -/
def st2 : ManagerState :=
  { st1 with isRunning := true }

/-- The completed results of a full run over `st1`, used as concrete
instantiations. -/
def allRes : RunResults :=
  ⟨2, 2, 0, 6,
    [⟨"S1", "success", 5, 1, none⟩, ⟨"S2", "success", 1, 1, none⟩],
    false⟩

/-- Wall-clock time the sequential loop needs for a selection (ids with
no scraper take no scrape time). -/
def timeNeeded (st : ManagerState) (ids : List Nat) : Nat :=
  (ids.map fun id =>
    match List.lookup id st.scrapers with
    | some sc => sc.duration
    | none => 0).sum

/-! ## Fetch paths of the three extractors

`BaseScraper.fetchHTML` is the Fetcher: an `axios.get` carrying the bot
user agent and a 30-second timeout, followed by an awaited
`sleep(this.delay)`.  `CheerioScraper.scrape` and `NitterScraper.scrape`
fetch their document through it; `RSSScraper.scrape` instead calls
`this.parser.parseURL(this.rssUrl)`, i.e. the `rss-parser` library's own
HTTP request, which carries none of the Fetcher's headers, timeout or
delay.  A scrape's network activity is embedded as the list of HTTP
requests it issues. -/

/-- Constructor inputs of a `BaseScraper` (name, `sourceConfig` and the
process environment). -/
structure ScraperCfg where
  sourceName : String
  url : String
  rssUrl : Option String
  envDelayMs : Option Nat
  envUserAgent : Option String
deriving Repr, DecidableEq

/-- `this.delay = parseInt(process.env.SCRAPE_DELAY_MS) || 2000`
(`NaN` and `0` are falsy). -/
def scraperDelay (envDelayMs : Option Nat) : Nat :=
  match envDelayMs with
  | some d => if d = 0 then 2000 else d
  | none => 2000

/-- `this.userAgent = process.env.USER_AGENT || 'BaldwinNewsBot/1.0
(+https://baldwincountynews.com/about)'`. -/
def scraperUserAgent (envUserAgent : Option String) : String :=
  match envUserAgent with
  | some ua =>
    if strIsEmpty ua then
      "BaldwinNewsBot/1.0 (+https://baldwincountynews.com/about)"
    else ua
  | none => "BaldwinNewsBot/1.0 (+https://baldwincountynews.com/about)"

/-- One HTTP request as observable from the orchestrated code:
`userAgent`/`timeoutMs` are the values the caller set on the request
(`none` when the issuing library used its own defaults), and
`postFetchDelayMs` is the sleep awaited after the response before
control returns. -/
structure HttpRequest where
  url : String
  userAgent : Option String
  timeoutMs : Option Nat
  postFetchDelayMs : Nat
  viaFetchHTML : Bool
deriving Repr, DecidableEq

/-- The request issued by `BaseScraper.fetchHTML(url)`. -/
def fetchHTMLRequest (cfg : ScraperCfg) (url : String) : HttpRequest :=
  { url := url,
    userAgent := some (scraperUserAgent cfg.envUserAgent),
    timeoutMs := some 30000,
    postFetchDelayMs := scraperDelay cfg.envDelayMs,
    viaFetchHTML := true }

/-- `this.rssUrl = sourceConfig.rss_url || sourceConfig.url`. -/
def rssUrlOf (cfg : ScraperCfg) : String :=
  match cfg.rssUrl with
  | some s => if strIsEmpty s then cfg.url else s
  | none => cfg.url

/-- Document fetches issued by `RSSScraper.scrape`: a single
`parser.parseURL(this.rssUrl)` — the `rss-parser` library's own request,
which does not go through `fetchHTML`. -/
def rssScrapeRequests (cfg : ScraperCfg) : List HttpRequest :=
  [{ url := rssUrlOf cfg,
     userAgent := none,
     timeoutMs := none,
     postFetchDelayMs := 0,
     viaFetchHTML := false }]

/-- Document fetches issued by `CheerioScraper.scrape`: a single
`this.fetchHTML(this.sourceUrl)`. -/
def cheerioScrapeRequests (cfg : ScraperCfg) : List HttpRequest :=
  [fetchHTMLRequest cfg cfg.url]

/-- The Nitter search URL for a hashtag (first configured instance). -/
def nitterSearchUrl (hashtag : String) : String :=
  "https://nitter.net/search?f=tweets&q=%23" ++ hashtag

/-- The config built by the `NitterScraper` constructor. -/
def nitterCfg (hashtag : String) (envDelayMs : Option Nat)
    (envUserAgent : Option String) : ScraperCfg :=
  { sourceName := "Nitter-" ++ hashtag,
    url := nitterSearchUrl hashtag,
    rssUrl := none,
    envDelayMs := envDelayMs,
    envUserAgent := envUserAgent }

/-- Document fetches issued by `NitterScraper.scrape`: a single
`this.fetchHTML(this.sourceUrl)`. -/
def nitterScrapeRequests (hashtag : String) (envDelayMs : Option Nat)
    (envUserAgent : Option String) : List HttpRequest :=
  [fetchHTMLRequest (nitterCfg hashtag envDelayMs envUserAgent)
    (nitterSearchUrl hashtag)]

/-- A sample RSS source config (AL.com with a configured feed URL) under
a default environment. -/
def cfg0 : ScraperCfg :=
  { sourceName := "AL.com Baldwin",
    url := "https://www.al.com/news/mobile/baldwin/",
    rssUrl := some "https://www.al.com/arc/outboundfeeds/rss/",
    envDelayMs := none,
    envUserAgent := none }

/-! ## Per-item normalization of the three extractors

Each extractor turns one raw item/block into the `articleData` object it
passes to `saveArticle`.  Strings behave as JavaScript strings:
`substring(0, n)` is `jsSubstring`, and `a || b` over strings treats the
empty string as falsy (`jsOrS`).  Dates are carried as already-parsed
optional timestamps (`new Date(x)` on a present field, `new Date()` =
`now` otherwise). -/

/-- JavaScript `s.substring(0, n)`. -/
def jsSubstring (s : String) (n : Nat) : String :=
  String.mk (s.data.take n)

/-- JavaScript `a || b` over optional strings ("" and `undefined` are
falsy). -/
def jsOrS : Option String → Option String → Option String
  | some s, b => if strIsEmpty s then b else some s
  | none, b => b

/-- Replace the first occurrence of `pat` in a character list. -/
def replaceFirstAux (pat repl : List Char) : List Char → List Char
  | [] => []
  | c :: rest =>
    if pat.isPrefixOf (c :: rest) then
      repl ++ (c :: rest).drop pat.length
    else c :: replaceFirstAux pat repl rest

/-- JavaScript `s.replace(pat, repl)`: first occurrence only (an empty
pattern matches at the start of the string). -/
def replaceFirst (s pat repl : String) : String :=
  if strIsEmpty pat then String.mk (repl.data ++ s.data)
  else String.mk (replaceFirstAux pat.data repl.data s.data)

/-- `BaseScraper.getAbsoluteUrl`: resolves a relative URL against the
base (already-absolute URLs pass through, failures return the input). -/
def getAbsoluteUrl (relativeUrl baseUrl : String) : String :=
  if strStartsWith relativeUrl "http://"
      || strStartsWith relativeUrl "https://" then
    relativeUrl
  else baseUrl ++ relativeUrl

/-- A character matched by `\w` in the hashtag regex `#[\w]+`. -/
def isWordChar (c : Char) : Bool :=
  c.isAlphanum || c = '_'

/-- Worker for the hashtag scan; the fuel is an upper bound on the
characters left, so recursion is structural and kernel-evaluable. -/
def hashtagScanGo : Nat → List Char → List String
  | 0, _ => []
  | _ + 1, [] => []
  | fuel + 1, c :: rest =>
    if c = '#' then
      let run := rest.takeWhile isWordChar
      if run.isEmpty then hashtagScanGo fuel rest
      else ("#" ++ String.mk run) :: hashtagScanGo fuel (rest.drop run.length)
    else hashtagScanGo fuel rest

/-- All matches of `#[\w]+` in a text, in order (`text.match(/#[\w]+/g)`). -/
def hashtagScan (l : List Char) : List String :=
  hashtagScanGo l.length l

/-- The gazetteer of place names in `BaseScraper.extractTags`. -/
def locations : List String :=
  ["Orange Beach", "Gulf Shores", "Foley", "Baldwin County", "Mobile",
   "Fairhope", "Daphne"]

/-- `BaseScraper.extractTags(title, excerpt)`: case-insensitive
substring match against the gazetteer plus inline `#word` tokens,
de-duplicated (insertion-ordered set). -/
def extractTags (title excerpt : String) : List String :=
  let text := title ++ " " ++ excerpt
  let locTags := locations.filter fun loc =>
    containsKw (jsToLower text) (jsToLower loc)
  (locTags ++ hashtagScan text.data).dedup

/-- The `articleData` object an extractor passes to `saveArticle`. -/
structure ScrapedArticle where
  title : String
  excerpt : Option String
  content : Option String
  url : String
  author : Option String
  category : Option String
  platform : Option String
  image_url : Option String
  published_at : Option Nat
  tags : List String
deriving Repr, DecidableEq

/-- One parsed feed item as `rss-parser` hands it to
`RSSScraper.processItem` (string fields `none` when absent, dates
already parsed). -/
structure RSSItem where
  title : String
  link : String
  contentSnippet : Option String
  summary : Option String
  description : Option String
  contentEncoded : Option String
  content : Option String
  creator : Option String
  author : Option String
  pubDate : Option Nat
  enclosureUrl : Option String
  mediaContentUrl : Option String
  mediaThumbnailUrl : Option String
  categories : List String
deriving Repr, DecidableEq

/-- `RSSScraper.processItem(item)` (its data construction; the
existence check by URL is the `alreadyExists` input). -/
def RSSScraper.processItem (item : RSSItem) (alreadyExists : Bool)
    (now : Nat) : Option ScrapedArticle :=
  if alreadyExists then none
  else
    let excerpt :=
      (jsOrS item.contentSnippet (jsOrS item.summary item.description)).getD ""
    let content :=
      (jsOrS item.contentEncoded (jsOrS item.content (some excerpt))).getD ""
    let image_url :=
      match item.enclosureUrl with
      | some u => some u
      | none =>
        match item.mediaContentUrl with
        | some u => some u
        | none => item.mediaThumbnailUrl
    some
      { title := jsSubstring item.title 500,
        excerpt := some (jsSubstring excerpt 1000),
        content := some content,
        url := item.link,
        author := jsOrS item.creator item.author,
        category := some (categorizeArticle item.title excerpt),
        platform := none,
        image_url := image_url,
        published_at := some (item.pubDate.getD now),
        tags := extractTags item.title excerpt ++ item.categories }

/-- One candidate article block as `CheerioScraper.processArticleElement`
reads it off the page (cleaned texts; `datetime` is the parsed date
attribute/text when present). -/
structure HtmlBlock where
  title : String
  href : Option String
  excerpt : String
  datetime : Option Nat
  author : String
  imgSrc : Option String
  imgDataSrc : Option String
deriving Repr, DecidableEq

/-- `CheerioScraper.processArticleElement($, $article)` (its data
construction; the existence check by URL is the `alreadyExists`
input). -/
def CheerioScraper.processArticleElement (blk : HtmlBlock)
    (alreadyExists : Bool) (baseUrl : String) (now : Nat) :
    Option ScrapedArticle :=
  if strIsEmpty blk.title || blk.title.length < 10 then none
  else
    match blk.href with
    | none => none
    | some href =>
      if alreadyExists then none
      else
        some
          { title := jsSubstring blk.title 500,
            excerpt := some (jsSubstring blk.excerpt 1000),
            content := none,
            url := getAbsoluteUrl href baseUrl,
            author := if strIsEmpty blk.author then none else some blk.author,
            category := some (categorizeArticle blk.title blk.excerpt),
            platform := none,
            image_url := (jsOrS blk.imgSrc blk.imgDataSrc).map
              (getAbsoluteUrl · baseUrl),
            published_at := some (blk.datetime.getD now),
            tags := extractTags blk.title blk.excerpt }

/-- One tweet block as `NitterScraper.processTweetElement` reads it off
the search-results page. -/
structure TweetBlock where
  content : String
  username : String
  tweetLinkHref : Option String
  dateTitle : Option Nat
  imageSrc : Option String
deriving Repr, DecidableEq

/-- `NitterScraper.processTweetElement($, $tweet)` (its data
construction; the existence check by URL is the `alreadyExists`
input). -/
def NitterScraper.processTweetElement (hashtag : String)
    (blk : TweetBlock) (alreadyExists : Bool) (now : Nat) :
    Option ScrapedArticle :=
  if strIsEmpty blk.content || blk.content.length < 5 then none
  else
    match blk.tweetLinkHref with
    | none => none
    | some href =>
      if alreadyExists then none
      else
        some
          { title :=
              if blk.content.length > 100 then
                jsSubstring blk.content 100 ++ "..."
              else blk.content,
            excerpt := some blk.content,
            content := some blk.content,
            url := "https://twitter.com" ++ replaceFirst href "/i/web" "",
            author := some
              (if strIsEmpty blk.username then "Unknown" else blk.username),
            category := some "social",
            platform := some "twitter",
            image_url := blk.imageSrc.map fun u =>
              if strStartsWith u "/" then "https://nitter.net" ++ u else u,
            published_at := some (blk.dateTitle.getD now),
            tags := (hashtagScan blk.content.data
              ++ ["#" ++ hashtag]).dedup }

/-- A 1001-character content body. -/
def longStr : String :=
  String.mk (List.replicate 1001 'a')

/-- A feed item whose encoded content is 1001 characters long. -/
def rssItemLong : RSSItem :=
  { title := "A fairly long headline", link := "https://x.com/long",
    contentSnippet := some "short excerpt", summary := none,
    description := none, contentEncoded := some longStr, content := none,
    creator := none, author := none, pubDate := none,
    enclosureUrl := none, mediaContentUrl := none,
    mediaThumbnailUrl := none, categories := [] }

/-- A minimal feed item, HTML block and tweet block for the C8
witness, with the articles they produce. -/
def item0 : RSSItem :=
  { title := "Short headline here", link := "https://x.com/s",
    contentSnippet := none, summary := none, description := none,
    contentEncoded := none, content := none, creator := none,
    author := none, pubDate := none, enclosureUrl := none,
    mediaContentUrl := none, mediaThumbnailUrl := none, categories := [] }

def blk0 : HtmlBlock :=
  { title := "A reasonable headline", href := some "https://x.com/z",
    excerpt := "", datetime := none, author := "",
    imgSrc := none, imgDataSrc := none }

def tw0 : TweetBlock :=
  { content := "Hello world tweet", username := "",
    tweetLinkHref := some "/i/web/status/1", dateTitle := none,
    imageSrc := none }

def a0 : ScrapedArticle :=
  { title := "Short headline here", excerpt := some "",
    content := some "", url := "https://x.com/s", author := none,
    category := some "local", platform := none, image_url := none,
    published_at := some 7, tags := [] }

def a1 : ScrapedArticle :=
  { title := "A reasonable headline", excerpt := some "",
    content := none, url := "https://x.com/z", author := none,
    category := some "local", platform := none, image_url := none,
    published_at := some 7, tags := [] }

def a2 : ScrapedArticle :=
  { title := "Hello world tweet", excerpt := some "Hello world tweet",
    content := some "Hello world tweet",
    url := "https://twitter.com/status/1", author := some "Unknown",
    category := some "social", platform := some "twitter",
    image_url := none, published_at := some 7, tags := ["#gulf"] }

/-! ## Tags: `Article.addTags` and the `tags` / `article_tags` tables

`Article.addTags(articleId, tagNames)` runs, per name, `INSERT INTO tags
... ON CONFLICT (name) DO UPDATE SET name = EXCLUDED.name RETURNING id`
(a no-op update returning the existing row) followed by `INSERT INTO
article_tags ... ON CONFLICT DO NOTHING`; the schema's
`increment_tag_count_trigger` fires `AFTER INSERT ON article_tags` and
adds one to the tag's `count`.  Tag identity is its unique `name`, so
associations are keyed `(article_id, name)` here. -/

/-- One row of the `tags` table. -/
structure TagRow where
  name : String
  type : String
  count : Nat
deriving Repr, DecidableEq

/-- The `tags` and `article_tags` tables. -/
structure TagDb where
  tags : List TagRow
  articleTags : List (Nat × String)
deriving Repr, DecidableEq

/-- The trigger's `UPDATE tags SET count = count + 1 WHERE id =
NEW.tag_id`. -/
def incTag (n0 : String) (t : TagRow) : TagRow :=
  if t.name == n0 then { t with count := t.count + 1 } else t

/-- One iteration of the `addTags` loop for one tag name. -/
def addTagStep (articleId : Nat) (db : TagDb) (tagName : String) :
    TagDb :=
  let db1 :=
    if db.tags.any (fun t => t.name == tagName) then db
    else
      { db with
        tags := db.tags ++
          [⟨tagName,
            if strStartsWith tagName "#" then "hashtag" else "general",
            0⟩] }
  if (articleId, tagName) ∈ db1.articleTags then db1
  else
    { tags := db1.tags.map (incTag tagName),
      articleTags := db1.articleTags ++ [(articleId, tagName)] }

/-- `Article.addTags(articleId, tagNames)`. -/
def Article.addTags (db : TagDb) (articleId : Nat)
    (tagNames : List String) : TagDb :=
  tagNames.foldl (addTagStep articleId) db

/-- Total usage count recorded for a tag name. -/
def tagCountL (l : List TagRow) (n : String) : Nat :=
  ((l.filter fun t => t.name == n).map (·.count)).sum

/-- Usage count of a tag name in the `tags` table. -/
def tagCount (db : TagDb) (n : String) : Nat :=
  tagCountL db.tags n

/-- Number of article-tag associations naming a tag. -/
def assocCount (db : TagDb) (n : String) : Nat :=
  db.articleTags.countP fun p => p.2 == n

/-- Whether a tag row with a name exists. -/
def hasTag (db : TagDb) (n : String) : Bool :=
  db.tags.any fun t => t.name == n

/-! ## Verification of the claims -/

/-- C6: `categorizeArticle` is a deterministic function of the
concatenation `title ++ " " ++ excerpt` (matched case-insensitively), the
keyword rules are applied in the fixed precedence weather → politics →
sports → education → tourism → development with default `"local"`, the
first matching rule wins and exactly one category results; in particular
any input containing a weather term classifies as `"weather"` whatever
other rules (e.g. sports) would also match. -/
theorem categorizeArticle_first_rule_wins :
    (∀ t e t' e', t ++ " " ++ e = t' ++ " " ++ e' →
      categorizeArticle t e = categorizeArticle t' e')
    ∧ (∀ t e, matchesAny weatherKws (jsToLower (t ++ " " ++ e)) = true →
      categorizeArticle t e = "weather")
    ∧ (∀ t e, matchesAny weatherKws (jsToLower (t ++ " " ++ e)) = false →
      matchesAny politicsKws (jsToLower (t ++ " " ++ e)) = true →
      categorizeArticle t e = "politics")
    ∧ (∀ t e, matchesAny weatherKws (jsToLower (t ++ " " ++ e)) = false →
      matchesAny politicsKws (jsToLower (t ++ " " ++ e)) = false →
      matchesAny sportsKws (jsToLower (t ++ " " ++ e)) = true →
      categorizeArticle t e = "sports")
    ∧ (∀ t e, matchesAny weatherKws (jsToLower (t ++ " " ++ e)) = false →
      matchesAny politicsKws (jsToLower (t ++ " " ++ e)) = false →
      matchesAny sportsKws (jsToLower (t ++ " " ++ e)) = false →
      matchesAny educationKws (jsToLower (t ++ " " ++ e)) = true →
      categorizeArticle t e = "education")
    ∧ (∀ t e, matchesAny weatherKws (jsToLower (t ++ " " ++ e)) = false →
      matchesAny politicsKws (jsToLower (t ++ " " ++ e)) = false →
      matchesAny sportsKws (jsToLower (t ++ " " ++ e)) = false →
      matchesAny educationKws (jsToLower (t ++ " " ++ e)) = false →
      matchesAny tourismKws (jsToLower (t ++ " " ++ e)) = true →
      categorizeArticle t e = "tourism")
    ∧ (∀ t e, matchesAny weatherKws (jsToLower (t ++ " " ++ e)) = false →
      matchesAny politicsKws (jsToLower (t ++ " " ++ e)) = false →
      matchesAny sportsKws (jsToLower (t ++ " " ++ e)) = false →
      matchesAny educationKws (jsToLower (t ++ " " ++ e)) = false →
      matchesAny tourismKws (jsToLower (t ++ " " ++ e)) = false →
      matchesAny developmentKws (jsToLower (t ++ " " ++ e)) = true →
      categorizeArticle t e = "development")
    ∧ (∀ t e, matchesAny weatherKws (jsToLower (t ++ " " ++ e)) = false →
      matchesAny politicsKws (jsToLower (t ++ " " ++ e)) = false →
      matchesAny sportsKws (jsToLower (t ++ " " ++ e)) = false →
      matchesAny educationKws (jsToLower (t ++ " " ++ e)) = false →
      matchesAny tourismKws (jsToLower (t ++ " " ++ e)) = false →
      matchesAny developmentKws (jsToLower (t ++ " " ++ e)) = false →
      categorizeArticle t e = "local") := by
  refine ⟨?_, ?_, ?_, ?_, ?_, ?_, ?_, ?_⟩ <;>
    intro t e <;> intros <;> simp_all [categorizeArticle]

/-- Witness for C6: a headline containing both a weather term ("storm")
and a sports term ("game") classifies as "weather". -/
theorem categorizeArticle_first_rule_wins_witness :
    matchesAny sportsKws
      (jsToLower ("Storm warning before the game" ++ " " ++ "")) = true
    ∧ categorizeArticle "Storm warning before the game" "" = "weather" :=
  ⟨by decide,
   categorizeArticle_first_rule_wins.2.1 "Storm warning before the game" ""
     (by decide)⟩

/-- C1: two `Article.create` calls with the same URL but differing
title/excerpt/content leave exactly one row for that URL; its
title/excerpt/content are the second call's values, its `updated_at` is
the second call's time, and its `created_at` is the first call's time. -/
theorem Article.create_upsert_by_url
    (s0 : ArticlesTable) (d1 d2 : ArticleData) (t1 t2 : Nat)
    (hurl : d2.url = d1.url)
    (_hdiff : d1.title ≠ d2.title ∨ d1.excerpt ≠ d2.excerpt ∨
      d1.content ≠ d2.content)
    (hfresh : ∀ r ∈ s0.rows, r.url ≠ d1.url) :
    ∃ row,
      ((Article.create (Article.create s0 d1 t1) d2 t2).rows.filter
        (fun r => r.url == d1.url)) = [row]
      ∧ row.title = d2.title ∧ row.excerpt = d2.excerpt
      ∧ row.content = d2.content
      ∧ row.updated_at = t2 ∧ row.created_at = t1 := by
  have hany : (s0.rows.any fun r => r.url == d1.url) = false := by
    simp only [List.any_eq_false, beq_iff_eq]
    exact hfresh
  have h1 : Article.create s0 d1 t1 =
      ⟨s0.rows ++ [d1.toRow s0.nextId t1], s0.nextId + 1⟩ := by
    simp [Article.create, hany]
  rw [h1]
  have hany2 : ((s0.rows ++ [d1.toRow s0.nextId t1]).any
      fun r => r.url == d2.url) = true := by
    simp [ArticleData.toRow, hurl]
  refine ⟨{ (d1.toRow s0.nextId t1) with
            title := d2.title,
            excerpt := d2.excerpt,
            content := d2.content,
            updated_at := t2 },
      ?_, rfl, rfl, rfl, rfl, rfl⟩
  simp only [Article.create, hany2, if_true, List.map_append,
    List.filter_append]
  have hnil : ((s0.rows.map fun r =>
      if r.url == d2.url then
        { r with title := d2.title, excerpt := d2.excerpt,
                 content := d2.content, updated_at := t2 }
      else r).filter fun r => r.url == d1.url) = [] := by
    rw [List.filter_eq_nil_iff]
    intro a ha
    obtain ⟨r, hr, rfl⟩ := List.mem_map.mp ha
    have hne : r.url ≠ d2.url := by rw [hurl]; exact hfresh r hr
    simp [hne, hfresh r hr]
  rw [hnil]
  simp [ArticleData.toRow, hurl]

/-- Witness for C1 at a concrete store and two concrete observations. -/
theorem Article.create_upsert_by_url_witness :
    ∃ row,
      ((Article.create (Article.create ⟨[], 1⟩ d1ex 10) d2ex 20).rows.filter
        (fun r => r.url == d1ex.url)) = [row]
      ∧ row.title = d2ex.title ∧ row.excerpt = d2ex.excerpt
      ∧ row.content = d2ex.content
      ∧ row.updated_at = 20 ∧ row.created_at = 10 :=
  Article.create_upsert_by_url ⟨[], 1⟩ d1ex d2ex 10 20 rfl
    (Or.inl (by decide)) (by simp)

/-- With no max-article cap the `scrapeSelected` loop processes every
id: closed-form characterisation of the run. -/
theorem selLoop_none_eq (st : ManagerState) :
    ∀ ids acc logs,
      selLoop st none ids acc logs =
        ({ acc with
           successful := acc.successful + okCount st ids,
           failed := acc.failed + failCount st ids,
           articles := acc.articles + contribSum st ids,
           details := acc.details ++ selDetails st ids },
         logs ++ selLogs st ids, []) := by
  intro ids
  induction ids with
  | nil =>
    intro acc logs
    simp [selLoop, okCount, failCount, contribSum, selDetails, selLogs]
  | cons id rest ih =>
    intro acc logs
    cases hl : List.lookup id st.scrapers with
    | none =>
      simp only [selLoop, okCount, failCount, contribSum, selDetails,
        selLogs, contrib, List.map_cons, List.sum_cons, hl]
      rw [ih]
      simp only [contribSum, Prod.mk.injEq, RunResults.mk.injEq,
        List.append_assoc, List.nil_append, List.append_nil, and_true,
        true_and]
      omega
    | some sc =>
      cases ho : sc.outcome with
      | ok n =>
        simp only [selLoop, okCount, failCount, contribSum, selDetails,
          selLogs, contrib, srcDetail, srcLog, List.map_cons,
          List.sum_cons, hl, ho, capHit, Bool.false_eq_true, if_false]
        by_cases hn : n > 0
        · simp only [if_pos hn]
          rw [ih]
          simp only [contribSum]
          simp only [Prod.mk.injEq, RunResults.mk.injEq,
            List.append_assoc, List.nil_append, List.append_nil, and_true,
            true_and]
          omega
        · simp only [if_neg hn]
          rw [ih]
          simp only [contribSum]
          have hn0 : n = 0 := by omega
          subst hn0
          simp only [Prod.mk.injEq, RunResults.mk.injEq,
            List.append_assoc, List.nil_append, List.append_nil, and_true,
            true_and]
          omega
      | error msg =>
        simp only [selLoop, okCount, failCount, contribSum, selDetails,
          selLogs, contrib, srcDetail, srcLog, List.map_cons,
          List.sum_cons, hl, ho]
        rw [ih]
        simp only [contribSum]
        simp only [Prod.mk.injEq, RunResults.mk.injEq,
          List.append_assoc, List.nil_append, List.append_nil, and_true,
          true_and]
        omega

theorem okCount_eq_countP (st : ManagerState) :
    ∀ ids : List Nat, okCount st ids = ids.countP (isOk st) := by
  intro ids
  induction ids with
  | nil => simp [okCount]
  | cons id rest ih =>
    cases hl : List.lookup id st.scrapers with
    | none => simp [okCount, List.countP_cons, isOk, hl, ih]
    | some sc =>
      cases ho : sc.outcome <;>
        simp [okCount, List.countP_cons, isOk, hl, ho, ih] <;> omega

theorem failCount_eq_countP (st : ManagerState) :
    ∀ ids : List Nat,
      failCount st ids =
        ids.countP (fun id => (List.lookup id st.scrapers).isNone)
          + ids.countP (isErr st) := by
  intro ids
  induction ids with
  | nil => simp [failCount]
  | cons id rest ih =>
    cases hl : List.lookup id st.scrapers with
    | none => simp [failCount, List.countP_cons, isErr, hl, ih]; omega
    | some sc =>
      cases ho : sc.outcome <;>
        simp [failCount, List.countP_cons, isErr, hl, ho, ih] <;> omega

theorem okCount_add_failCount (st : ManagerState) :
    ∀ ids : List Nat, okCount st ids + failCount st ids = ids.length := by
  intro ids
  induction ids with
  | nil => simp [okCount, failCount]
  | cons id rest ih =>
    cases hl : List.lookup id st.scrapers with
    | none => simp [okCount, failCount, hl]; omega
    | some sc =>
      cases ho : sc.outcome <;> simp [okCount, failCount, hl, ho] <;> omega

theorem selDetails_length (st : ManagerState) :
    ∀ ids : List Nat,
      (selDetails st ids).length =
        ids.countP (fun id => (List.lookup id st.scrapers).isSome) := by
  intro ids
  induction ids with
  | nil => simp [selDetails]
  | cons id rest ih =>
    cases hl : List.lookup id st.scrapers with
    | none => simp [selDetails, List.countP_cons, hl, ih]
    | some sc => simp [selDetails, List.countP_cons, hl, ih]

theorem selLogs_length (st : ManagerState) :
    ∀ ids : List Nat,
      (selLogs st ids).length =
        ids.countP (fun id => (List.lookup id st.scrapers).isSome) := by
  intro ids
  induction ids with
  | nil => simp [selLogs]
  | cons id rest ih =>
    cases hl : List.lookup id st.scrapers with
    | none => simp [selLogs, List.countP_cons, hl, ih]
    | some sc => simp [selLogs, List.countP_cons, hl, ih]

theorem selLogs_sourceId (st : ManagerState) :
    ∀ ids : List Nat, ∀ l ∈ selLogs st ids,
      (List.lookup l.sourceId st.scrapers).isSome = true := by
  intro ids
  induction ids with
  | nil => simp [selLogs]
  | cons id rest ih =>
    intro l hl
    simp only [selLogs] at hl
    cases hlk : List.lookup id st.scrapers with
    | none =>
      rw [hlk] at hl
      simp at hl
      exact ih l hl
    | some sc =>
      rw [hlk] at hl
      simp only [List.mem_append, List.mem_singleton] at hl
      rcases hl with h | h
      · subst h
        have hsid : (srcLog id sc).sourceId = id := by
          cases ho : sc.outcome <;> simp [srcLog, ho]
        rw [hsid, hlk]
        rfl
      · exact ih l h

/-- Any `scrapeSelected` loop run preserves `total` and adds at most one
to `successful + failed` per selected id, whatever the cap does. -/
theorem selLoop_bounds (st : ManagerState) (mac : Option Nat) :
    ∀ ids acc logs,
      (selLoop st mac ids acc logs).1.total = acc.total ∧
      (selLoop st mac ids acc logs).1.successful +
          (selLoop st mac ids acc logs).1.failed
        ≤ acc.successful + acc.failed + ids.length := by
  intro ids
  induction ids with
  | nil => intro acc logs; simp [selLoop]
  | cons id rest ih =>
    intro acc logs
    cases hl : List.lookup id st.scrapers with
    | none =>
      simp only [selLoop, hl]
      obtain ⟨h1, h2⟩ := ih { acc with failed := acc.failed + 1 } logs
      refine ⟨h1, ?_⟩
      simp only [List.length_cons]
      simp at h2
      omega
    | some sc =>
      cases ho : sc.outcome with
      | ok n =>
        simp only [selLoop, hl, ho]
        by_cases hn : n > 0
        · rw [if_pos hn]
          by_cases hc : capHit mac
              ({ acc with
                 successful := acc.successful + 1,
                 articles := acc.articles + n } : RunResults).articles
          · rw [if_pos hc]
            simp only [List.length_cons]
            refine ⟨by trivial, ?_⟩
            dsimp only
            omega
          · rw [if_neg hc]
            obtain ⟨h1, h2⟩ := ih
              { acc with
                successful := acc.successful + 1,
                articles := acc.articles + n,
                details := acc.details ++
                  [⟨sc.sourceName, "success", n, sc.duration, none⟩] }
              (logs ++ [⟨id, "success", n, sc.duration, none⟩])
            refine ⟨h1, ?_⟩
            simp only [List.length_cons]
            simp at h2
            omega
        · rw [if_neg hn]
          by_cases hc : capHit mac
              ({ acc with successful := acc.successful + 1 }
                : RunResults).articles
          · rw [if_pos hc]
            simp only [List.length_cons]
            refine ⟨by trivial, ?_⟩
            dsimp only
            omega
          · rw [if_neg hc]
            obtain ⟨h1, h2⟩ := ih
              { acc with
                successful := acc.successful + 1,
                details := acc.details ++
                  [⟨sc.sourceName, "success", n, sc.duration, none⟩] }
              (logs ++ [⟨id, "success", n, sc.duration, none⟩])
            refine ⟨h1, ?_⟩
            simp only [List.length_cons]
            simp at h2
            omega
      | error msg =>
        simp only [selLoop, hl, ho]
        obtain ⟨h1, h2⟩ := ih
          { acc with
            failed := acc.failed + 1,
            details := acc.details ++
              [⟨sc.sourceName, "error", 0, sc.duration, some msg⟩] }
          (logs ++ [⟨id, "error", 0, sc.duration, some msg⟩])
        refine ⟨h1, ?_⟩
        simp only [List.length_cons]
        simp at h2
        omega

/-- The `scrapeAll` loop preserves `total` and `timedOut` and counts
every scraper map entry in exactly one of `successful` / `failed`. -/
theorem allLoop_counts :
    ∀ (entries : List (Nat × ScraperBehavior)) acc logs,
      (allLoop entries acc logs).1.total = acc.total ∧
      (allLoop entries acc logs).1.successful +
          (allLoop entries acc logs).1.failed
        = acc.successful + acc.failed + entries.length ∧
      (allLoop entries acc logs).1.timedOut = acc.timedOut := by
  intro entries
  induction entries with
  | nil => intro acc logs; simp [allLoop]
  | cons e rest ih =>
    intro acc logs
    obtain ⟨id, sc⟩ := e
    cases ho : sc.outcome with
    | ok n =>
      simp only [allLoop, ho]
      by_cases hn : n > 0
      · rw [if_pos hn]
        obtain ⟨h1, h2, h3⟩ := ih
          { acc with
            successful := acc.successful + 1,
            articles := acc.articles + n,
            details := acc.details ++
              [⟨sc.sourceName, "success", n, sc.duration, none⟩] }
          (logs ++ [⟨id, "success", n, sc.duration, none⟩])
        refine ⟨h1, ?_, h3⟩
        simp only [List.length_cons]
        simp at h2
        omega
      · rw [if_neg hn]
        obtain ⟨h1, h2, h3⟩ := ih
          { acc with
            successful := acc.successful + 1,
            details := acc.details ++
              [⟨sc.sourceName, "success", n, sc.duration, none⟩] }
          (logs ++ [⟨id, "success", n, sc.duration, none⟩])
        refine ⟨h1, ?_, h3⟩
        simp only [List.length_cons]
        simp at h2
        omega
    | error msg =>
      simp only [allLoop, ho]
      obtain ⟨h1, h2, h3⟩ := ih
        { acc with
          failed := acc.failed + 1,
          details := acc.details ++
            [⟨sc.sourceName, "error", 0, sc.duration, some msg⟩] }
        (logs ++ [⟨id, "error", 0, sc.duration, some msg⟩])
      refine ⟨h1, ?_, h3⟩
      simp only [List.length_cons]
      simp at h2
      omega

theorem countP_isSome_add_isNone (st : ManagerState) :
    ∀ ids : List Nat,
      ids.countP (fun id => (List.lookup id st.scrapers).isSome)
        + ids.countP (fun id => (List.lookup id st.scrapers).isNone)
      = ids.length := by
  intro ids
  induction ids with
  | nil => simp
  | cons id rest ih =>
    cases hl : List.lookup id st.scrapers with
    | none => simp [List.countP_cons, hl]; omega
    | some sc => simp [List.countP_cons, hl]; omega

/-- C2 (counterexample): `scrapeSingle` invoked while a run is active is
not rejected with the "already in progress" signal — it has no
`isRunning` check at all and proceeds, so the claim fails for
`runSingle`. -/
theorem scrapeSingle_ignores_running_cex :
    st2.isRunning = true
    ∧ (ScraperManager.scrapeSingle st2 1).2 =
        Except.ok { success := true, source := "S1", articles := 5 }
    ∧ (ScraperManager.scrapeSingle st2 1).2 ≠
        Except.error "Scraping already in progress" := by
  decide

/-- C2 (amended): `scrapeAll` and `scrapeSelected` invoked while a run
is active are rejected synchronously with the "already in progress"
reply and leave the whole manager state — flag, scraper map and
`scrape_logs` ledger — unmodified; `scrapeSingle` performs no such
check. -/
theorem scrape_busy_rejection
    (st : ManagerState) (h : st.isRunning = true)
    (ids : List Nat) (opts : ScrapeOptions) :
    ScraperManager.scrapeAll st = (st, ScrapeReply.busy)
    ∧ ScraperManager.scrapeSelected st ids opts =
        (st, ScrapeReply.busy) := by
  constructor <;>
    simp [ScraperManager.scrapeAll, ScraperManager.scrapeSelected, h]

/-- Witness for amended C2 at a concrete running manager. -/
theorem scrape_busy_rejection_witness :
    ScraperManager.scrapeAll st2 = (st2, ScrapeReply.busy)
    ∧ ScraperManager.scrapeSelected st2 [1] ⟨none, none⟩ =
        (st2, ScrapeReply.busy) :=
  scrape_busy_rejection st2 (by decide) [1] ⟨none, none⟩

/-- C3 (counterexample): a `scrapeSelected` run with `maxArticles = 1`
over two sources stops at the cap and completes without timing out, yet
`successful + failed = 1 ≠ 2 = total`; the claim's equality for
completed runs fails. -/
theorem run_counts_cap_cex :
    (ScraperManager.scrapeSelected st1 [1, 2] ⟨none, some 1⟩).2 =
      ScrapeReply.done
        { total := 2, successful := 1, failed := 0, articles := 5,
          details := [], timedOut := false }
    ∧ (1 : Nat) + 0 ≠ 2 := by
  decide

/-- The timed `scrapeSelected` loop preserves `total` and adds at most
one to `successful + failed` per selected id, whatever the cap and the
timer do. -/
theorem selLoopTimed_bounds (st : ManagerState) (mac : Option Nat)
    (T : Nat) :
    ∀ ids acc logs elapsed,
      (selLoopTimed st mac T ids acc logs elapsed).1.total = acc.total ∧
      (selLoopTimed st mac T ids acc logs elapsed).1.successful +
          (selLoopTimed st mac T ids acc logs elapsed).1.failed
        ≤ acc.successful + acc.failed + ids.length := by
  intro ids
  induction ids with
  | nil => intro acc logs elapsed; simp [selLoopTimed]
  | cons id rest ih =>
    intro acc logs elapsed
    cases hl : List.lookup id st.scrapers with
    | none =>
      simp only [selLoopTimed, hl]
      obtain ⟨h1, h2⟩ :=
        ih { acc with failed := acc.failed + 1 } logs elapsed
      refine ⟨h1, ?_⟩
      simp only [List.length_cons]
      simp at h2
      omega
    | some sc =>
      cases ho : sc.outcome with
      | ok n =>
        simp only [selLoopTimed, hl, ho]
        by_cases ht : T < elapsed + sc.duration
        · rw [if_pos ht]
          simp only [List.length_cons]
          refine ⟨by trivial, ?_⟩
          dsimp only
          omega
        · rw [if_neg ht]
          by_cases hn : n > 0
          · rw [if_pos hn]
            by_cases hc : capHit mac
                ({ acc with
                   successful := acc.successful + 1,
                   articles := acc.articles + n } : RunResults).articles
            · rw [if_pos hc]
              simp only [List.length_cons]
              refine ⟨by trivial, ?_⟩
              dsimp only
              omega
            · rw [if_neg hc]
              obtain ⟨h1, h2⟩ := ih
                { acc with
                  successful := acc.successful + 1,
                  articles := acc.articles + n,
                  details := acc.details ++
                    [⟨sc.sourceName, "success", n, sc.duration, none⟩] }
                (logs ++ [⟨id, "success", n, sc.duration, none⟩])
                (elapsed + sc.duration)
              refine ⟨h1, ?_⟩
              simp only [List.length_cons]
              simp at h2
              omega
          · rw [if_neg hn]
            by_cases hc : capHit mac
                ({ acc with successful := acc.successful + 1 }
                  : RunResults).articles
            · rw [if_pos hc]
              simp only [List.length_cons]
              refine ⟨by trivial, ?_⟩
              dsimp only
              omega
            · rw [if_neg hc]
              obtain ⟨h1, h2⟩ := ih
                { acc with
                  successful := acc.successful + 1,
                  details := acc.details ++
                    [⟨sc.sourceName, "success", n, sc.duration, none⟩] }
                (logs ++ [⟨id, "success", n, sc.duration, none⟩])
                (elapsed + sc.duration)
              refine ⟨h1, ?_⟩
              simp only [List.length_cons]
              simp at h2
              omega
      | error msg =>
        simp only [selLoopTimed, hl, ho]
        by_cases ht : T < elapsed + sc.duration
        · rw [if_pos ht]
          simp only [List.length_cons]
          refine ⟨by trivial, ?_⟩
          dsimp only
          omega
        · rw [if_neg ht]
          obtain ⟨h1, h2⟩ := ih
            { acc with
              failed := acc.failed + 1,
              details := acc.details ++
                [⟨sc.sourceName, "error", 0, sc.duration, some msg⟩] }
            (logs ++ [⟨id, "error", 0, sc.duration, some msg⟩])
            (elapsed + sc.duration)
          refine ⟨h1, ?_⟩
          simp only [List.length_cons]
          simp at h2
          omega

/-- An untimed `scrapeSelected` loop that exits with no ids left
unattempted — whatever the cap value — counted every selected id in
exactly one of `successful` / `failed` and never set `timedOut`. -/
theorem selLoop_complete (st : ManagerState) (mac : Option Nat) :
    ∀ ids acc logs,
      (selLoop st mac ids acc logs).2.2 = [] →
      (selLoop st mac ids acc logs).1.successful +
          (selLoop st mac ids acc logs).1.failed
        = acc.successful + acc.failed + ids.length
      ∧ (selLoop st mac ids acc logs).1.timedOut = acc.timedOut := by
  intro ids
  induction ids with
  | nil =>
    intro acc logs _
    simp [selLoop]
  | cons id rest ih =>
    intro acc logs hrem
    cases hl : List.lookup id st.scrapers with
    | none =>
      simp only [selLoop, hl] at hrem ⊢
      obtain ⟨h1, h2⟩ :=
        ih { acc with failed := acc.failed + 1 } logs hrem
      refine ⟨?_, h2⟩
      simp only [List.length_cons]
      simp at h1
      omega
    | some sc =>
      cases ho : sc.outcome with
      | ok n =>
        simp only [selLoop, hl, ho] at hrem ⊢
        by_cases hn : n > 0
        · rw [if_pos hn] at hrem ⊢
          by_cases hc : capHit mac
              ({ acc with
                 successful := acc.successful + 1,
                 articles := acc.articles + n } : RunResults).articles
          · rw [if_pos hc] at hrem ⊢
            have hrest : rest = [] := by simpa using hrem
            subst hrest
            refine ⟨?_, by trivial⟩
            simp only [List.length_cons, List.length_nil]
            omega
          · rw [if_neg hc] at hrem ⊢
            obtain ⟨h1, h2⟩ := ih _ _ hrem
            refine ⟨?_, h2⟩
            simp only [List.length_cons]
            simp at h1
            omega
        · rw [if_neg hn] at hrem ⊢
          by_cases hc : capHit mac
              ({ acc with successful := acc.successful + 1 }
                : RunResults).articles
          · rw [if_pos hc] at hrem ⊢
            have hrest : rest = [] := by simpa using hrem
            subst hrest
            refine ⟨?_, by trivial⟩
            simp only [List.length_cons, List.length_nil]
            omega
          · rw [if_neg hc] at hrem ⊢
            obtain ⟨h1, h2⟩ := ih _ _ hrem
            refine ⟨?_, h2⟩
            simp only [List.length_cons]
            simp at h1
            omega
      | error msg =>
        simp only [selLoop, hl, ho] at hrem ⊢
        obtain ⟨h1, h2⟩ := ih _ _ hrem
        refine ⟨?_, h2⟩
        simp only [List.length_cons]
        simp at h1
        omega

/-- A timed `scrapeSelected` loop that finishes with `timedOut` unset
and no ids left unattempted counted every selected id in exactly one of
`successful` / `failed`. -/
theorem selLoopTimed_complete (st : ManagerState) (mac : Option Nat)
    (T : Nat) :
    ∀ ids acc logs elapsed, acc.timedOut = false →
      (selLoopTimed st mac T ids acc logs elapsed).1.timedOut = false →
      (selLoopTimed st mac T ids acc logs elapsed).2.2 = [] →
      (selLoopTimed st mac T ids acc logs elapsed).1.successful +
          (selLoopTimed st mac T ids acc logs elapsed).1.failed
        = acc.successful + acc.failed + ids.length := by
  intro ids
  induction ids with
  | nil =>
    intro acc logs elapsed _ _ _
    simp [selLoopTimed]
  | cons id rest ih =>
    intro acc logs elapsed hacc hto hrem
    cases hl : List.lookup id st.scrapers with
    | none =>
      simp only [selLoopTimed, hl] at hto hrem ⊢
      have h1 := ih { acc with failed := acc.failed + 1 } logs elapsed
        hacc hto hrem
      simp only [List.length_cons]
      simp at h1
      omega
    | some sc =>
      cases ho : sc.outcome with
      | ok n =>
        simp only [selLoopTimed, hl, ho] at hto hrem ⊢
        by_cases ht : T < elapsed + sc.duration
        · rw [if_pos ht] at hto
          simp at hto
        · rw [if_neg ht] at hto hrem ⊢
          by_cases hn : n > 0
          · rw [if_pos hn] at hto hrem ⊢
            by_cases hc : capHit mac
                ({ acc with
                   successful := acc.successful + 1,
                   articles := acc.articles + n } : RunResults).articles
            · rw [if_pos hc] at hrem ⊢
              have hrest : rest = [] := by simpa using hrem
              subst hrest
              simp only [List.length_cons, List.length_nil]
              omega
            · rw [if_neg hc] at hto hrem ⊢
              have h1 := ih
                { acc with
                  successful := acc.successful + 1,
                  articles := acc.articles + n,
                  details := acc.details ++
                    [⟨sc.sourceName, "success", n, sc.duration, none⟩] }
                (logs ++ [⟨id, "success", n, sc.duration, none⟩])
                (elapsed + sc.duration) hacc hto hrem
              simp only [List.length_cons]
              simp at h1
              omega
          · rw [if_neg hn] at hto hrem ⊢
            by_cases hc : capHit mac
                ({ acc with successful := acc.successful + 1 }
                  : RunResults).articles
            · rw [if_pos hc] at hrem ⊢
              have hrest : rest = [] := by simpa using hrem
              subst hrest
              simp only [List.length_cons, List.length_nil]
              omega
            · rw [if_neg hc] at hto hrem ⊢
              have h1 := ih
                { acc with
                  successful := acc.successful + 1,
                  details := acc.details ++
                    [⟨sc.sourceName, "success", n, sc.duration, none⟩] }
                (logs ++ [⟨id, "success", n, sc.duration, none⟩])
                (elapsed + sc.duration) hacc hto hrem
              simp only [List.length_cons]
              simp at h1
              omega
      | error msg =>
        simp only [selLoopTimed, hl, ho] at hto hrem ⊢
        by_cases ht : T < elapsed + sc.duration
        · rw [if_pos ht] at hto
          simp at hto
        · rw [if_neg ht] at hto hrem ⊢
          have h1 := ih
            { acc with
              failed := acc.failed + 1,
              details := acc.details ++
                [⟨sc.sourceName, "error", 0, sc.duration, some msg⟩] }
            (logs ++ [⟨id, "error", 0, sc.duration, some msg⟩])
            (elapsed + sc.duration) hacc hto hrem
          simp only [List.length_cons]
          simp at h1
          omega

/-- C3 (amended): during any run — untimed or timed `scrapeSelected`
with any options, and `scrapeAll` — `successful + failed` never exceeds
`total` at any point, and it equals `total` for every run that reaches
completion without timing out and without being stopped early by the
max-article cap: every completed `scrapeAll` run, every untimed
selected run whose loop exits with no ids left unattempted (in
particular any run whose cap was never reached), every timed selected
run that neither timed out nor stopped at the cap, and every
`scrapeSelected` call without cap and timeout options.  The equality
does not extend to capped runs stopped early (counterexample above). -/
theorem run_counts_invariant :
    (∀ (st : ManagerState) (mac : Option Nat) (ids p q : List Nat),
      ids = p ++ q →
      (selLoop st mac p (RunResults.init ids.length) []).1.successful +
          (selLoop st mac p (RunResults.init ids.length) []).1.failed
        ≤ (selLoop st mac p (RunResults.init ids.length) []).1.total)
    ∧ (∀ (st : ManagerState) (mac : Option Nat) (T : Nat)
        (ids p q : List Nat), ids = p ++ q →
      (selLoopTimed st mac T p
          (RunResults.init ids.length) [] 0).1.successful +
          (selLoopTimed st mac T p
            (RunResults.init ids.length) [] 0).1.failed
        ≤ (selLoopTimed st mac T p
            (RunResults.init ids.length) [] 0).1.total)
    ∧ (∀ entries p q : List (Nat × ScraperBehavior), entries = p ++ q →
      (allLoop p (RunResults.init entries.length) []).1.successful +
          (allLoop p (RunResults.init entries.length) []).1.failed
        ≤ (allLoop p (RunResults.init entries.length) []).1.total)
    ∧ (∀ (st : ManagerState) (ids : List Nat) (opts : ScrapeOptions),
      st.isRunning = false →
      ∀ res, (ScraperManager.scrapeSelected st ids opts).2 =
          ScrapeReply.done res →
        res.successful + res.failed ≤ res.total)
    ∧ (∀ st : ManagerState, st.isRunning = false →
      ∀ res, (ScraperManager.scrapeAll st).2 = ScrapeReply.done res →
        res.successful + res.failed = res.total ∧ res.timedOut = false)
    ∧ (∀ (st : ManagerState) (mac : Option Nat) (ids : List Nat),
      (selLoop st mac ids (RunResults.init ids.length) []).2.2 = [] →
      (selLoop st mac ids (RunResults.init ids.length) []).1.successful +
          (selLoop st mac ids (RunResults.init ids.length) []).1.failed
        = (selLoop st mac ids (RunResults.init ids.length) []).1.total
      ∧ (selLoop st mac ids
          (RunResults.init ids.length) []).1.timedOut = false)
    ∧ (∀ (st : ManagerState) (mac : Option Nat) (T : Nat)
        (ids : List Nat),
      (selLoopTimed st mac T ids
          (RunResults.init ids.length) [] 0).1.timedOut = false →
      (selLoopTimed st mac T ids
          (RunResults.init ids.length) [] 0).2.2 = [] →
      (selLoopTimed st mac T ids
          (RunResults.init ids.length) [] 0).1.successful +
          (selLoopTimed st mac T ids
            (RunResults.init ids.length) [] 0).1.failed
        = (selLoopTimed st mac T ids
            (RunResults.init ids.length) [] 0).1.total)
    ∧ (∀ (st : ManagerState) (ids : List Nat), st.isRunning = false →
      ∀ res, (ScraperManager.scrapeSelected st ids ⟨none, none⟩).2 =
          ScrapeReply.done res →
        res.successful + res.failed = res.total ∧
          res.timedOut = false) := by
  refine ⟨?_, ?_, ?_, ?_, ?_, ?_, ?_, ?_⟩
  · intro st mac ids p q hpq
    obtain ⟨ht, hb⟩ :=
      selLoop_bounds st mac p (RunResults.init ids.length) []
    rw [ht]
    have hlen : p.length ≤ ids.length := by
      subst hpq; simp
    simp only [RunResults.init] at hb ⊢
    omega
  · intro st mac T ids p q hpq
    obtain ⟨ht, hb⟩ :=
      selLoopTimed_bounds st mac T p (RunResults.init ids.length) [] 0
    rw [ht]
    have hlen : p.length ≤ ids.length := by
      subst hpq; simp
    simp only [RunResults.init] at hb ⊢
    omega
  · intro entries p q hpq
    obtain ⟨ht, hb, _⟩ :=
      allLoop_counts p (RunResults.init entries.length) []
    rw [ht]
    have hlen : p.length ≤ entries.length := by
      subst hpq; simp
    simp only [RunResults.init] at hb ⊢
    omega
  · intro st ids opts h res hres
    simp only [ScraperManager.scrapeSelected, h, Bool.false_eq_true,
      if_false] at hres
    by_cases jt : jsTruthy opts.timeout = true
    · rw [if_pos jt] at hres
      simp only [ScrapeReply.done.injEq] at hres
      subst hres
      obtain ⟨ht, hb⟩ := selLoopTimed_bounds st opts.maxArticles
        (opts.timeout.getD 0) ids (RunResults.init ids.length) [] 0
      rw [ht]
      simp only [RunResults.init] at hb ⊢
      omega
    · rw [if_neg jt] at hres
      simp only [ScrapeReply.done.injEq] at hres
      subst hres
      obtain ⟨ht, hb⟩ := selLoop_bounds st opts.maxArticles ids
        (RunResults.init ids.length) []
      rw [ht]
      simp only [RunResults.init] at hb ⊢
      omega
  · intro st h res hres
    simp only [ScraperManager.scrapeAll, h, Bool.false_eq_true, if_false,
      ScrapeReply.done.injEq] at hres
    subst hres
    obtain ⟨h1, h2, h3⟩ :=
      allLoop_counts st.scrapers (RunResults.init st.scrapers.length) []
    constructor
    · simp only [RunResults.init] at h1 h2 ⊢
      omega
    · simpa [RunResults.init] using h3
  · intro st mac ids hrem
    obtain ⟨h1, h2⟩ :=
      selLoop_complete st mac ids (RunResults.init ids.length) [] hrem
    obtain ⟨ht, _⟩ :=
      selLoop_bounds st mac ids (RunResults.init ids.length) []
    rw [ht]
    constructor
    · simp only [RunResults.init] at h1 ⊢
      omega
    · simpa [RunResults.init] using h2
  · intro st mac T ids hto hrem
    have h1 := selLoopTimed_complete st mac T ids
      (RunResults.init ids.length) [] 0 (by trivial) hto hrem
    obtain ⟨ht, _⟩ :=
      selLoopTimed_bounds st mac T ids (RunResults.init ids.length) [] 0
    rw [ht]
    simp only [RunResults.init] at h1 ⊢
    omega
  · intro st ids h res hres
    simp only [ScraperManager.scrapeSelected, h, Bool.false_eq_true,
      if_false, jsTruthy, Bool.false_eq_true, ScrapeReply.done.injEq]
      at hres
    rw [selLoop_none_eq] at hres
    subst hres
    simp only [RunResults.init]
    refine ⟨?_, by trivial⟩
    have := okCount_add_failCount st ids
    omega

/-- Witness for amended C3 at the concrete two-source manager: prefix
bounds for untimed, timed and full runs, the wrapper bound under cap
and timeout options, and the completion equalities for a completed
`scrapeAll`, an unreached cap of 99, a non-expiring timeout of 5 ms,
and an optionless `scrapeSelected`. -/
theorem run_counts_invariant_witness :
    ((selLoop st1 none [1] (RunResults.init 2) []).1.successful +
        (selLoop st1 none [1] (RunResults.init 2) []).1.failed
      ≤ (selLoop st1 none [1] (RunResults.init 2) []).1.total)
    ∧ ((selLoopTimed st1 none 5 [1]
          (RunResults.init 2) [] 0).1.successful +
        (selLoopTimed st1 none 5 [1] (RunResults.init 2) [] 0).1.failed
      ≤ (selLoopTimed st1 none 5 [1] (RunResults.init 2) [] 0).1.total)
    ∧ ((allLoop [(1, ⟨"S1", Except.ok 5, 1⟩)]
          (RunResults.init st1.scrapers.length) []).1.successful +
        (allLoop [(1, ⟨"S1", Except.ok 5, 1⟩)]
          (RunResults.init st1.scrapers.length) []).1.failed
      ≤ (allLoop [(1, ⟨"S1", Except.ok 5, 1⟩)]
          (RunResults.init st1.scrapers.length) []).1.total)
    ∧ (allRes.successful + allRes.failed ≤ allRes.total)
    ∧ (allRes.successful + allRes.failed = allRes.total ∧
        allRes.timedOut = false)
    ∧ ((selLoop st1 (some 99) [1, 2]
          (RunResults.init 2) []).1.successful +
        (selLoop st1 (some 99) [1, 2] (RunResults.init 2) []).1.failed
      = (selLoop st1 (some 99) [1, 2] (RunResults.init 2) []).1.total
      ∧ (selLoop st1 (some 99) [1, 2]
          (RunResults.init 2) []).1.timedOut = false)
    ∧ ((selLoopTimed st1 (some 99) 5 [1, 2]
          (RunResults.init 2) [] 0).1.successful +
        (selLoopTimed st1 (some 99) 5 [1, 2]
          (RunResults.init 2) [] 0).1.failed
      = (selLoopTimed st1 (some 99) 5 [1, 2]
          (RunResults.init 2) [] 0).1.total)
    ∧ (allRes.successful + allRes.failed = allRes.total ∧
        allRes.timedOut = false) :=
  ⟨run_counts_invariant.1 st1 none [1, 2] [1] [2] rfl,
   run_counts_invariant.2.1 st1 none 5 [1, 2] [1] [2] rfl,
   run_counts_invariant.2.2.1 st1.scrapers
     [(1, ⟨"S1", Except.ok 5, 1⟩)] [(2, ⟨"S2", Except.ok 1, 1⟩)]
     (by decide),
   run_counts_invariant.2.2.2.1 st1 [1, 2] ⟨some 5, some 99⟩ (by decide)
     allRes (by decide),
   run_counts_invariant.2.2.2.2.1 st1 (by decide) allRes (by decide),
   run_counts_invariant.2.2.2.2.2.1 st1 (some 99) [1, 2] (by decide),
   run_counts_invariant.2.2.2.2.2.2.1 st1 (some 99) 5 [1, 2] (by decide)
     (by decide),
   run_counts_invariant.2.2.2.2.2.2.2 st1 [1, 2] (by decide) allRes
     (by decide)⟩

/-- C10: in a `scrapeSelected` run (no cap, no timeout), an id with no
registered scraper is counted in `failed` (first conjunct) but produces
no detail entry and no `scrape_logs` row — details and log rows exist
exactly for ids with a scraper (and every log row's id has a scraper) —
so the details list of a completed, non-timed-out run is strictly
shorter than `successful + failed` whenever such an id was selected. -/
theorem scrapeSelected_missing_scraper (st : ManagerState)
    (ids : List Nat) :
    (selLoop st none ids (RunResults.init ids.length) []).1.failed =
        ids.countP (fun id => (List.lookup id st.scrapers).isNone)
          + ids.countP (isErr st)
    ∧ (selLoop st none ids (RunResults.init ids.length) []).1.details.length
        = ids.countP (fun id => (List.lookup id st.scrapers).isSome)
    ∧ (selLoop st none ids (RunResults.init ids.length) []).2.1.length
        = ids.countP (fun id => (List.lookup id st.scrapers).isSome)
    ∧ (∀ l ∈ (selLoop st none ids (RunResults.init ids.length) []).2.1,
        (List.lookup l.sourceId st.scrapers).isSome = true)
    ∧ (selLoop st none ids (RunResults.init ids.length) []).1.timedOut
        = false
    ∧ ((∃ id ∈ ids, List.lookup id st.scrapers = none) →
        (selLoop st none ids
            (RunResults.init ids.length) []).1.details.length <
          (selLoop st none ids (RunResults.init ids.length) []).1.successful
            + (selLoop st none ids
                (RunResults.init ids.length) []).1.failed) := by
  rw [selLoop_none_eq]
  simp only [RunResults.init, List.nil_append, Nat.zero_add]
  refine ⟨failCount_eq_countP st ids, selDetails_length st ids,
    selLogs_length st ids, selLogs_sourceId st ids, by trivial, ?_⟩
  intro hex
  obtain ⟨id0, hmem, hnone⟩ := hex
  have hpos : 0 < ids.countP
      (fun id => (List.lookup id st.scrapers).isNone) := by
    rw [List.countP_pos_iff]
    exact ⟨id0, hmem, by simp [hnone]⟩
  have hsum := countP_isSome_add_isNone st ids
  have hok := okCount_add_failCount st ids
  rw [selDetails_length st ids]
  omega

/-- Witness for C10: selecting the unknown id 3 between the two real
sources yields two detail entries but `successful + failed = 3`. -/
theorem scrapeSelected_missing_scraper_witness :
    (selLoop st1 none [1, 3, 2] (RunResults.init 3) []).1.details.length <
      (selLoop st1 none [1, 3, 2] (RunResults.init 3) []).1.successful
        + (selLoop st1 none [1, 3, 2] (RunResults.init 3) []).1.failed :=
  (scrapeSelected_missing_scraper st1 [1, 3, 2]).2.2.2.2.2
    ⟨3, by decide, by decide⟩

/-- A true cap test means the cap was met. -/
theorem capHit_some_true {N x : Nat} (h : capHit (some N) x = true) :
    N ≤ x := by
  simp [capHit] at h
  exact h.2

/-- A failed cap test with a positive cap means the cap was not met. -/
theorem capHit_some_not {N x : Nat} (hN : 0 < N)
    (h : ¬ capHit (some N) x = true) : x < N := by
  by_contra h2
  exact h (by simp [capHit]; omega)

theorem prefix_cons_elim {α : Type} {a : α} {q p : List α}
    (h : q <+: a :: p) : q = [] ∨ ∃ q', q = a :: q' ∧ q' <+: p := by
  cases q with
  | nil => exact Or.inl rfl
  | cons b q' =>
    obtain ⟨t, ht⟩ := h
    rw [List.cons_append] at ht
    injection ht with h1 h2
    subst h1
    exact Or.inr ⟨q', rfl, ⟨t, h2⟩⟩

/-- Decomposition of a capped `scrapeSelected` loop run: some prefix `p`
of the selection is attempted and the rest is returned unattempted; each
attempted id contributes exactly one unit to `successful + failed` and
its articles to the aggregate; the loop stops with ids remaining only
when the cap has been met, and every proper prefix of the attempted
prefix was still under the cap. -/
theorem selLoop_cap_decomp (st : ManagerState) (N : Nat) (hN : 0 < N) :
    ∀ ids acc logs, acc.articles < N →
      ∃ p, ids = p ++ (selLoop st (some N) ids acc logs).2.2
        ∧ (selLoop st (some N) ids acc logs).1.successful +
            (selLoop st (some N) ids acc logs).1.failed
          = acc.successful + acc.failed + p.length
        ∧ (selLoop st (some N) ids acc logs).1.articles
          = acc.articles + contribSum st p
        ∧ ((selLoop st (some N) ids acc logs).2.2 ≠ [] →
            N ≤ (selLoop st (some N) ids acc logs).1.articles)
        ∧ (∀ q, q <+: p → q ≠ p → acc.articles + contribSum st q < N) := by
  intro ids
  induction ids with
  | nil =>
    intro acc logs hacc
    refine ⟨[], by simp [selLoop], by simp [selLoop], ?_, ?_, ?_⟩
    · simp [selLoop, contribSum]
    · intro h
      exact absurd rfl h
    · intro q hq hne
      rw [List.prefix_nil.mp hq] at hne
      exact absurd rfl hne
  | cons id rest ih =>
    intro acc logs hacc
    cases hl : List.lookup id st.scrapers with
    | none =>
      obtain ⟨p', hdec, hsf, hart, hrem, hmin⟩ :=
        ih { acc with failed := acc.failed + 1 } logs hacc
      simp only [selLoop, hl]
      refine ⟨id :: p', ?_, ?_, ?_, hrem, ?_⟩
      · rw [List.cons_append, ← hdec]
      · rw [hsf]
        simp
        omega
      · rw [hart]
        simp [contribSum, contrib, hl]
      · intro q hq hne
        rcases prefix_cons_elim hq with rfl | ⟨q', rfl, hq'⟩
        · simpa [contribSum] using hacc
        · have hne' : q' ≠ p' := fun h => hne (by rw [h])
          have := hmin q' hq' hne'
          simp only [contribSum, List.map_cons, List.sum_cons,
            contrib, hl] at this ⊢
          omega
    | some sc =>
      cases ho : sc.outcome with
      | ok n =>
        simp only [selLoop, hl, ho]
        by_cases hn : n > 0
        · rw [if_pos hn]
          by_cases hc : capHit (some N)
              ({ acc with
                 successful := acc.successful + 1,
                 articles := acc.articles + n } : RunResults).articles
          · rw [if_pos hc]
            have hcap : N ≤ acc.articles + n := capHit_some_true hc
            refine ⟨[id], by simp,
              by simp only [List.length_cons, List.length_nil]; omega,
              ?_, fun _ => hcap, ?_⟩
            · simp [contribSum, contrib, hl, ho]
            · intro q hq hne
              rcases prefix_cons_elim hq with rfl | ⟨q', rfl, hq'⟩
              · simpa [contribSum] using hacc
              · rw [List.prefix_nil.mp hq'] at hne
                exact absurd rfl hne
          · rw [if_neg hc]
            have hlt : acc.articles + n < N := capHit_some_not hN hc
            obtain ⟨p', hdec, hsf, hart, hrem, hmin⟩ :=
              ih { acc with
                   successful := acc.successful + 1,
                   articles := acc.articles + n,
                   details := acc.details ++
                     [⟨sc.sourceName, "success", n, sc.duration, none⟩] }
                (logs ++ [⟨id, "success", n, sc.duration, none⟩]) hlt
            refine ⟨id :: p', ?_, ?_, ?_, hrem, ?_⟩
            · rw [List.cons_append, ← hdec]
            · rw [hsf]
              simp
              omega
            · rw [hart]
              simp [contribSum, contrib, hl, ho]
              omega
            · intro q hq hne
              rcases prefix_cons_elim hq with rfl | ⟨q', rfl, hq'⟩
              · simpa [contribSum] using hacc
              · have hne' : q' ≠ p' := fun h => hne (by rw [h])
                have := hmin q' hq' hne'
                simp only [contribSum, List.map_cons, List.sum_cons,
                  contrib, hl, ho] at this ⊢
                omega
        · rw [if_neg hn]
          have hn0 : n = 0 := by omega
          subst hn0
          by_cases hc : capHit (some N)
              ({ acc with successful := acc.successful + 1 }
                : RunResults).articles
          · rw [if_pos hc]
            have hcap : N ≤ acc.articles := capHit_some_true hc
            refine ⟨[id], by simp,
              by simp only [List.length_cons, List.length_nil]; omega,
              ?_, fun _ => hcap, ?_⟩
            · simp [contribSum, contrib, hl, ho]
            · intro q hq hne
              rcases prefix_cons_elim hq with rfl | ⟨q', rfl, hq'⟩
              · simpa [contribSum] using hacc
              · rw [List.prefix_nil.mp hq'] at hne
                exact absurd rfl hne
          · rw [if_neg hc]
            have hlt : acc.articles < N := hacc
            obtain ⟨p', hdec, hsf, hart, hrem, hmin⟩ :=
              ih { acc with
                   successful := acc.successful + 1,
                   details := acc.details ++
                     [⟨sc.sourceName, "success", 0, sc.duration, none⟩] }
                (logs ++ [⟨id, "success", 0, sc.duration, none⟩]) hlt
            refine ⟨id :: p', ?_, ?_, ?_, hrem, ?_⟩
            · rw [List.cons_append, ← hdec]
            · rw [hsf]
              simp
              omega
            · rw [hart]
              simp [contribSum, contrib, hl, ho]
            · intro q hq hne
              rcases prefix_cons_elim hq with rfl | ⟨q', rfl, hq'⟩
              · simpa [contribSum] using hacc
              · have hne' : q' ≠ p' := fun h => hne (by rw [h])
                have := hmin q' hq' hne'
                simp only [contribSum, List.map_cons, List.sum_cons,
                  contrib, hl, ho] at this ⊢
                omega
      | error msg =>
        simp only [selLoop, hl, ho]
        obtain ⟨p', hdec, hsf, hart, hrem, hmin⟩ :=
          ih { acc with
               failed := acc.failed + 1,
               details := acc.details ++
                 [⟨sc.sourceName, "error", 0, sc.duration, some msg⟩] }
            (logs ++ [⟨id, "error", 0, sc.duration, some msg⟩]) hacc
        refine ⟨id :: p', ?_, ?_, ?_, hrem, ?_⟩
        · rw [List.cons_append, ← hdec]
        · rw [hsf]
          simp
          omega
        · rw [hart]
          simp [contribSum, contrib, hl, ho]
        · intro q hq hne
          rcases prefix_cons_elim hq with rfl | ⟨q', rfl, hq'⟩
          · simpa [contribSum] using hacc
          · have hne' : q' ≠ p' := fun h => hne (by rw [h])
            have := hmin q' hq' hne'
            simp only [contribSum, List.map_cons, List.sum_cons,
              contrib, hl, ho] at this ⊢
            omega

/-- C4: a `scrapeSelected` run with `maxArticles = N > 0` attempts a
prefix `p` of the selection and leaves the rest unattempted; the
unattempted sources are counted in neither `successful` nor `failed`
(their sum is exactly `p.length`); the aggregate article count equals
the contribution of the attempted sources; the loop only stops early
once the cumulative count has met or exceeded `N`, and the cap check
fires at the first source for which that holds (every proper prefix was
still under the cap). -/
theorem scrapeSelected_max_articles_cap (st : ManagerState)
    (ids : List Nat) (N : Nat) (hN : 0 < N) :
    ∃ p,
      ids = p ++
          (selLoop st (some N) ids (RunResults.init ids.length) []).2.2
      ∧ (selLoop st (some N) ids
            (RunResults.init ids.length) []).1.successful +
          (selLoop st (some N) ids (RunResults.init ids.length) []).1.failed
        = p.length
      ∧ (selLoop st (some N) ids (RunResults.init ids.length) []).1.articles
        = contribSum st p
      ∧ ((selLoop st (some N) ids (RunResults.init ids.length) []).2.2
            ≠ [] →
          N ≤ (selLoop st (some N) ids
              (RunResults.init ids.length) []).1.articles)
      ∧ (∀ q, q <+: p → q ≠ p → contribSum st q < N) := by
  obtain ⟨p, h1, h2, h3, h4, h5⟩ :=
    selLoop_cap_decomp st N hN ids (RunResults.init ids.length) [] hN
  refine ⟨p, h1, ?_, ?_, h4, ?_⟩
  · simpa [RunResults.init] using h2
  · simpa [RunResults.init] using h3
  · intro q hq hne
    simpa [RunResults.init] using h5 q hq hne

/-- Witness for C4: two sources and a cap of one article; the first
source meets the cap and the second is left unattempted. -/
theorem scrapeSelected_max_articles_cap_witness :
    ∃ p,
      [1, 2] = p ++
          (selLoop st1 (some 1) [1, 2] (RunResults.init 2) []).2.2
      ∧ (selLoop st1 (some 1) [1, 2] (RunResults.init 2) []).1.successful +
          (selLoop st1 (some 1) [1, 2] (RunResults.init 2) []).1.failed
        = p.length
      ∧ (selLoop st1 (some 1) [1, 2] (RunResults.init 2) []).1.articles
        = contribSum st1 p
      ∧ ((selLoop st1 (some 1) [1, 2] (RunResults.init 2) []).2.2 ≠ [] →
          1 ≤ (selLoop st1 (some 1) [1, 2]
              (RunResults.init 2) []).1.articles)
      ∧ (∀ q, q <+: p → q ≠ p → contribSum st1 q < 1) := by
  have h := scrapeSelected_max_articles_cap st1 [1, 2] 1 (by decide)
  simpa [RunResults.init] using h

/-- A timed run that cannot finish within the timer decomposes as: the
untimed loop over the prefix that completed before expiry, flagged
`timedOut := true`, with a non-empty unprocessed suffix. -/
theorem selLoopTimed_decomp (st : ManagerState) (T : Nat) :
    ∀ ids acc logs elapsed, elapsed ≤ T →
      T < elapsed + timeNeeded st ids →
      ∃ p q, ids = p ++ q ∧ q ≠ [] ∧
        selLoopTimed st none T ids acc logs elapsed =
          ({ (selLoop st none p acc logs).1 with timedOut := true },
           (selLoop st none p acc logs).2.1, q) := by
  intro ids
  induction ids with
  | nil =>
    intro acc logs elapsed h1 h2
    exfalso
    simp [timeNeeded] at h2
    omega
  | cons id rest ih =>
    intro acc logs elapsed h1 h2
    cases hl : List.lookup id st.scrapers with
    | none =>
      have h2' : T < elapsed + timeNeeded st rest := by
        simp only [timeNeeded, List.map_cons, List.sum_cons, hl] at h2 ⊢
        omega
      obtain ⟨p', q', hdec, hq, heq⟩ :=
        ih { acc with failed := acc.failed + 1 } logs elapsed h1 h2'
      refine ⟨id :: p', q', by rw [List.cons_append, ← hdec], hq, ?_⟩
      simp only [selLoopTimed, selLoop, hl]
      exact heq
    | some sc =>
      by_cases ht : T < elapsed + sc.duration
      · refine ⟨[], id :: rest, rfl, by simp, ?_⟩
        simp only [selLoopTimed, hl, if_pos ht, selLoop]
      · have hel : elapsed + sc.duration ≤ T := by omega
        cases ho : sc.outcome with
        | ok n =>
          by_cases hn : n > 0
          · have h2' : T < (elapsed + sc.duration) + timeNeeded st rest := by
              simp only [timeNeeded, List.map_cons, List.sum_cons, hl]
                at h2 ⊢
              omega
            obtain ⟨p', q', hdec, hq, heq⟩ :=
              ih { acc with
                   successful := acc.successful + 1,
                   articles := acc.articles + n,
                   details := acc.details ++
                     [⟨sc.sourceName, "success", n, sc.duration, none⟩] }
                (logs ++ [⟨id, "success", n, sc.duration, none⟩])
                (elapsed + sc.duration) hel h2'
            refine ⟨id :: p', q', by rw [List.cons_append, ← hdec], hq, ?_⟩
            simp only [selLoopTimed, selLoop, hl, ho, if_neg ht,
              if_pos hn, capHit, Bool.false_eq_true, if_false]
            exact heq
          · have h2' : T < (elapsed + sc.duration) + timeNeeded st rest := by
              simp only [timeNeeded, List.map_cons, List.sum_cons, hl]
                at h2 ⊢
              omega
            obtain ⟨p', q', hdec, hq, heq⟩ :=
              ih { acc with
                   successful := acc.successful + 1,
                   details := acc.details ++
                     [⟨sc.sourceName, "success", n, sc.duration, none⟩] }
                (logs ++ [⟨id, "success", n, sc.duration, none⟩])
                (elapsed + sc.duration) hel h2'
            refine ⟨id :: p', q', by rw [List.cons_append, ← hdec], hq, ?_⟩
            simp only [selLoopTimed, selLoop, hl, ho, if_neg ht,
              if_neg hn, capHit, Bool.false_eq_true, if_false]
            exact heq
        | error msg =>
          have h2' : T < (elapsed + sc.duration) + timeNeeded st rest := by
            simp only [timeNeeded, List.map_cons, List.sum_cons, hl]
              at h2 ⊢
            omega
          obtain ⟨p', q', hdec, hq, heq⟩ :=
            ih { acc with
                 failed := acc.failed + 1,
                 details := acc.details ++
                   [⟨sc.sourceName, "error", 0, sc.duration, some msg⟩] }
              (logs ++ [⟨id, "error", 0, sc.duration, some msg⟩])
              (elapsed + sc.duration) hel h2'
          refine ⟨id :: p', q', by rw [List.cons_append, ← hdec], hq, ?_⟩
          simp only [selLoopTimed, selLoop, hl, ho, if_neg ht]
          exact heq

/-- C5: a `scrapeSelected` run whose (truthy) timeout is shorter than
the time needed to process all selected sources returns normally (a
`done` reply, not a thrown error) with `timedOut = true`; the detail
entries of the sources that completed before expiry are kept — they are
exactly the untimed loop's details over the completed prefix — and the
details list is strictly shorter than `total`. -/
theorem scrapeSelected_timeout (st : ManagerState) (ids : List Nat)
    (T : Nat) (hrun : st.isRunning = false) (hT : T ≠ 0)
    (hneed : T < timeNeeded st ids) :
    ∃ res, (ScraperManager.scrapeSelected st ids ⟨some T, none⟩).2 =
        ScrapeReply.done res
      ∧ res.timedOut = true
      ∧ res.details.length < res.total
      ∧ ∃ p q, ids = p ++ q ∧ q ≠ [] ∧
          res.details =
            (selLoop st none p (RunResults.init ids.length) []).1.details := by
  obtain ⟨p, q, hdec, hq, heq⟩ :=
    selLoopTimed_decomp st T ids (RunResults.init ids.length) [] 0
      (Nat.zero_le T) (by simpa using hneed)
  refine ⟨{ (selLoop st none p (RunResults.init ids.length) []).1 with
            timedOut := true },
    ?_, rfl, ?_, p, q, hdec, hq, rfl⟩
  · have hjt : jsTruthy (some T) = true := by
      simp [jsTruthy]
      exact hT
    simp only [ScraperManager.scrapeSelected, hrun, Bool.false_eq_true,
      if_false, hjt, if_true, Option.getD]
    rw [heq]
  · rw [selLoop_none_eq st p (RunResults.init ids.length) []]
    simp only [RunResults.init, List.nil_append]
    have h1 : (selDetails st p).length ≤ p.length := by
      rw [selDetails_length st p]
      exact List.countP_le_length _
    have h2 : p.length < ids.length := by
      subst hdec
      cases q with
      | nil => exact absurd rfl hq
      | cons a q' => simp
    omega

/-- Witness for C5: two one-millisecond sources against a one-
millisecond timeout; the first source's detail entry survives and the
run reports `timedOut`. -/
theorem scrapeSelected_timeout_witness :
    ∃ res, (ScraperManager.scrapeSelected st1 [1, 2] ⟨some 1, none⟩).2 =
        ScrapeReply.done res
      ∧ res.timedOut = true
      ∧ res.details.length < res.total
      ∧ ∃ p q, [1, 2] = p ++ q ∧ q ≠ [] ∧
          res.details =
            (selLoop st1 none p (RunResults.init 2) []).1.details :=
  scrapeSelected_timeout st1 [1, 2] 1 (by decide) (by decide) (by decide)

/-- C7 (counterexample): the Feed Extractor's document fetch does not
go through the Fetcher: it carries no caller-set user agent, no
30-second timeout and no post-fetch delay, so the claim fails for
`RSSScraper`. -/
theorem rss_bypasses_fetcher_cex :
    (rssScrapeRequests cfg0).length = 1
    ∧ ((rssScrapeRequests cfg0).all fun r =>
        r.viaFetchHTML && r.userAgent.isSome &&
          (r.timeoutMs == some 30000) && (r.postFetchDelayMs != 0))
      = false := by
  decide

/-- C7 (amended): the Structured-Page and Mirror-Search extractors fetch
their document exclusively through `fetchHTML`, hence with the
configured bot user agent, the 30-second timeout and the mandatory
post-fetch delay (2000 ms when no environment override is set); the
Feed Extractor's fetch bypasses `fetchHTML` entirely via
`parser.parseURL`. -/
theorem extractor_fetch_paths :
    (∀ cfg : ScraperCfg, ∀ r ∈ cheerioScrapeRequests cfg,
      r.viaFetchHTML = true
      ∧ r.userAgent = some (scraperUserAgent cfg.envUserAgent)
      ∧ r.timeoutMs = some 30000
      ∧ r.postFetchDelayMs = scraperDelay cfg.envDelayMs)
    ∧ (∀ (hashtag : String) (ed : Option Nat) (eu : Option String),
      ∀ r ∈ nitterScrapeRequests hashtag ed eu,
        r.viaFetchHTML = true
        ∧ r.userAgent = some (scraperUserAgent eu)
        ∧ r.timeoutMs = some 30000
        ∧ r.postFetchDelayMs = scraperDelay ed)
    ∧ (∀ cfg : ScraperCfg, ∀ r ∈ rssScrapeRequests cfg,
      r.viaFetchHTML = false
      ∧ r.userAgent = none
      ∧ r.timeoutMs = none
      ∧ r.postFetchDelayMs = 0)
    ∧ scraperDelay none = 2000
    ∧ scraperUserAgent none =
        "BaldwinNewsBot/1.0 (+https://baldwincountynews.com/about)" := by
  refine ⟨?_, ?_, ?_, rfl, rfl⟩
  · intro cfg r hr
    simp only [cheerioScrapeRequests, List.mem_singleton] at hr
    subst hr
    simp [fetchHTMLRequest]
  · intro hashtag ed eu r hr
    simp only [nitterScrapeRequests, List.mem_singleton] at hr
    subst hr
    simp [fetchHTMLRequest, nitterCfg]
  · intro cfg r hr
    simp only [rssScrapeRequests, List.mem_singleton] at hr
    subst hr
    simp

/-- Witness for amended C7 at the sample config and a sample hashtag. -/
theorem extractor_fetch_paths_witness :
    ((fetchHTMLRequest cfg0 cfg0.url).viaFetchHTML = true
      ∧ (fetchHTMLRequest cfg0 cfg0.url).userAgent =
          some (scraperUserAgent cfg0.envUserAgent)
      ∧ (fetchHTMLRequest cfg0 cfg0.url).timeoutMs = some 30000
      ∧ (fetchHTMLRequest cfg0 cfg0.url).postFetchDelayMs =
          scraperDelay cfg0.envDelayMs)
    ∧ ({ url := rssUrlOf cfg0, userAgent := none, timeoutMs := none,
         postFetchDelayMs := 0, viaFetchHTML := false }
          : HttpRequest).viaFetchHTML = false :=
  ⟨extractor_fetch_paths.1 cfg0 (fetchHTMLRequest cfg0 cfg0.url)
      (by decide),
   ((extractor_fetch_paths.2.2.1 cfg0
      { url := rssUrlOf cfg0, userAgent := none, timeoutMs := none,
        postFetchDelayMs := 0, viaFetchHTML := false }
      (by decide)).1)⟩

theorem jsSubstring_length_le (s : String) (n : Nat) :
    (jsSubstring s n).length ≤ n := by
  have h : (jsSubstring s n).length = (s.data.take n).length := rfl
  rw [h]
  exact List.length_take_le _ _

/-- C8 (counterexample): the Feed Extractor passes `content` to the
store verbatim — a 1001-character body is stored at 1001 characters, so
the claimed 1000-character hard truncation of `content` fails. -/
theorem rss_content_not_truncated_cex :
    ((RSSScraper.processItem rssItemLong false 0).map (·.content))
      = some (some longStr)
    ∧ longStr.length = 1001
    ∧ ¬ (longStr.length ≤ 1000) := by
  refine ⟨rfl, ?_, ?_⟩
  · simp [longStr, String.length]
  · simp [longStr, String.length]

/-- C8 (amended): the Feed and Structured-Page extractors hard-truncate
`title` to 500 and `excerpt` to 1000 characters with no ellipsis; the
Structured-Page extractor passes no `content` field at all; the
Mirror-Search extractor's `title` is capped at 100 characters plus an
ellipsis (103 total) while its `excerpt` and `content` are the raw
tweet text, untruncated; and the Feed Extractor's `content` is passed
through untruncated (counterexample above). -/
theorem extractor_truncation :
    (∀ (item : RSSItem) (ex : Bool) (now : Nat) (a : ScrapedArticle),
      RSSScraper.processItem item ex now = some a →
      a.title.length ≤ 500 ∧ (a.excerpt.getD "").length ≤ 1000)
    ∧ (∀ (blk : HtmlBlock) (ex : Bool) (base : String) (now : Nat)
        (a : ScrapedArticle),
      CheerioScraper.processArticleElement blk ex base now = some a →
      a.title.length ≤ 500 ∧ (a.excerpt.getD "").length ≤ 1000
        ∧ a.content = none)
    ∧ (∀ (h : String) (blk : TweetBlock) (ex : Bool) (now : Nat)
        (a : ScrapedArticle),
      NitterScraper.processTweetElement h blk ex now = some a →
      a.title.length ≤ 103 ∧ a.excerpt = some blk.content
        ∧ a.content = some blk.content) := by
  refine ⟨?_, ?_, ?_⟩
  · intro item ex now a h
    cases ex with
    | true => simp [RSSScraper.processItem] at h
    | false =>
      simp only [RSSScraper.processItem, Bool.false_eq_true, if_false,
        Option.some.injEq] at h
      subst h
      exact ⟨jsSubstring_length_le _ _, by
        simpa using jsSubstring_length_le _ 1000⟩
  · intro blk ex base now a h
    simp only [CheerioScraper.processArticleElement] at h
    split at h
    · exact absurd h (by simp)
    · cases hh : blk.href with
      | none => rw [hh] at h; exact absurd h (by simp)
      | some href =>
        rw [hh] at h
        cases ex with
        | true => simp at h
        | false =>
          simp only [Bool.false_eq_true, if_false,
            Option.some.injEq] at h
          subst h
          refine ⟨jsSubstring_length_le _ _, ?_, rfl⟩
          simpa using jsSubstring_length_le _ 1000
  · intro hashtag blk ex now a h
    simp only [NitterScraper.processTweetElement] at h
    split at h
    · exact absurd h (by simp)
    · cases hh : blk.tweetLinkHref with
      | none => rw [hh] at h; exact absurd h (by simp)
      | some href =>
        rw [hh] at h
        cases ex with
        | true => simp at h
        | false =>
          simp only [Bool.false_eq_true, if_false,
            Option.some.injEq] at h
          subst h
          refine ⟨?_, rfl, rfl⟩
          show (if blk.content.length > 100 then
              jsSubstring blk.content 100 ++ "..."
            else blk.content).length ≤ 103
          by_cases hlen : blk.content.length > 100
          · rw [if_pos hlen, String.length_append]
            have h1 := jsSubstring_length_le blk.content 100
            have h2 : ("..." : String).length = 3 := rfl
            omega
          · rw [if_neg hlen]
            omega

/-- Witness for amended C8 at one concrete item per extractor. -/
theorem extractor_truncation_witness :
    (a0.title.length ≤ 500 ∧ (a0.excerpt.getD "").length ≤ 1000)
    ∧ (a1.title.length ≤ 500 ∧ (a1.excerpt.getD "").length ≤ 1000
        ∧ a1.content = none)
    ∧ (a2.title.length ≤ 103 ∧ a2.excerpt = some tw0.content
        ∧ a2.content = some tw0.content) :=
  ⟨extractor_truncation.1 item0 false 7 a0 (by decide),
   extractor_truncation.2.1 blk0 false "https://x.com" 7 a1 (by decide),
   extractor_truncation.2.2 "gulf" tw0 false 7 a2 (by decide)⟩

theorem incTag_name (n0 : String) (t : TagRow) :
    (incTag n0 t).name = t.name := by
  unfold incTag
  split <;> rfl

theorem tagCountL_append (l1 l2 : List TagRow) (n : String) :
    tagCountL (l1 ++ l2) n = tagCountL l1 n + tagCountL l2 n := by
  simp [tagCountL, List.filter_append]

theorem incTag_count (n0 : String) (t : TagRow) :
    (incTag n0 t).count =
      (if (t.name == n0) = true then t.count + 1 else t.count) := by
  by_cases h : (t.name == n0) = true
  · simp [incTag, h]
  · simp [incTag, h]

theorem tagCountL_cons (t : TagRow) (l : List TagRow) (n : String) :
    tagCountL (t :: l) n =
      (if (t.name == n) = true then t.count else 0) + tagCountL l n := by
  by_cases h : (t.name == n) = true <;>
    simp [tagCountL, List.filter_cons, h]

theorem tagCountL_map_inc (n0 n : String) :
    ∀ l : List TagRow,
      tagCountL (l.map (incTag n0)) n =
        tagCountL l n +
          (if n = n0 then (l.filter fun t => t.name == n0).length
           else 0) := by
  intro l
  induction l with
  | nil => simp [tagCountL]
  | cons t rest ih =>
    rw [List.map_cons, tagCountL_cons, tagCountL_cons, ih,
      List.filter_cons, incTag_name, incTag_count]
    by_cases h0 : (t.name == n0) = true <;>
      by_cases hn : (t.name == n) = true <;>
      by_cases hq : n = n0 <;>
      simp_all [List.length_cons] <;>
      omega

theorem filter_name_one (n0 : String) :
    ∀ l : List TagRow, (l.map TagRow.name).Nodup →
      l.any (fun t => t.name == n0) = true →
      (l.filter fun t => t.name == n0).length = 1 := by
  intro l
  induction l with
  | nil => intro _ h; simp at h
  | cons t rest ih =>
    intro hnd h
    simp only [List.map_cons, List.nodup_cons] at hnd
    by_cases h0 : t.name = n0
    · simp only [List.filter_cons, h0, beq_self_eq_true, if_true,
        List.length_cons]
      have hz : (rest.filter fun t' => t'.name == n0) = [] := by
        rw [List.filter_eq_nil_iff]
        intro x hx
        simp only [beq_iff_eq]
        intro hxn
        exact hnd.1 (by
          rw [h0, ← hxn]
          exact List.mem_map_of_mem TagRow.name hx)
      rw [hz]
      rfl
    · have hb : (t.name == n0) = false := by simp [h0]
      simp only [List.filter_cons, hb, Bool.false_eq_true, if_false]
      apply ih hnd.2
      simp only [List.any_cons, hb, Bool.false_or] at h
      exact h

theorem assocCount_append_one (l : List (Nat × String))
    (aid : Nat) (n0 m : String) :
    (l ++ [(aid, n0)]).countP (fun p => p.2 == m)
      = l.countP (fun p => p.2 == m) + (if n0 = m then 1 else 0) := by
  rw [List.countP_append]
  by_cases h : n0 = m <;> simp [h]

/-- Effect of one `addTags` iteration: tag-name uniqueness is
preserved, no tag or association is removed, the tag now exists, and
the name's usage counter rises by exactly the number of new
associations (one when the pair was new, zero otherwise). -/
theorem addTagStep_spec (articleId : Nat) (db : TagDb) (n0 : String)
    (hnd : (db.tags.map TagRow.name).Nodup) :
    ((addTagStep articleId db n0).tags.map TagRow.name).Nodup
    ∧ (∀ t ∈ db.tags,
        ∃ t' ∈ (addTagStep articleId db n0).tags, t'.name = t.name)
    ∧ (∀ p ∈ db.articleTags,
        p ∈ (addTagStep articleId db n0).articleTags)
    ∧ (∀ m, hasTag db m = true →
        hasTag (addTagStep articleId db n0) m = true)
    ∧ hasTag (addTagStep articleId db n0) n0 = true
    ∧ (∀ m, tagCount (addTagStep articleId db n0) m + assocCount db m
        = tagCount db m
          + assocCount (addTagStep articleId db n0) m) := by
  classical
  have step :
      ∃ db1 : TagDb,
        addTagStep articleId db n0 =
          (if (articleId, n0) ∈ db1.articleTags then db1
           else
             { tags := db1.tags.map (incTag n0),
               articleTags := db1.articleTags ++ [(articleId, n0)] })
        ∧ (db1.tags.map TagRow.name).Nodup
        ∧ (db1.tags.any fun t => t.name == n0) = true
        ∧ (∀ t ∈ db.tags, t ∈ db1.tags)
        ∧ db1.articleTags = db.articleTags
        ∧ (∀ m, tagCountL db1.tags m = tagCountL db.tags m)
        ∧ (∀ m, hasTag db m = true →
            (db1.tags.any fun t => t.name == m) = true) := by
    by_cases hp : (db.tags.any fun t => t.name == n0) = true
    · exact ⟨db, by simp [addTagStep, hp], hnd, hp, fun t ht => ht, rfl,
        fun m => rfl, fun m hm => hm⟩
    · refine ⟨{ db with
          tags := db.tags ++
            [⟨n0,
              if strStartsWith n0 "#" then "hashtag" else "general",
              0⟩] },
        by simp [addTagStep, hp], ?_, ?_, ?_, rfl, ?_, ?_⟩
      · rw [List.map_append]
        have hn0 : n0 ∉ db.tags.map TagRow.name := by
          intro hmem
          obtain ⟨t, ht, htn⟩ := List.mem_map.mp hmem
          have : (db.tags.any fun t => t.name == n0) = true :=
            List.any_eq_true.mpr ⟨t, ht, by simp [htn]⟩
          exact hp this
        simp only [List.map_cons, List.map_nil]
        rw [← List.concat_eq_append]
        exact hnd.concat hn0
      · simp
      · intro t ht
        exact List.mem_append_left _ ht
      · intro m
        rw [tagCountL_append]
        have : tagCountL
            [(⟨n0,
              if strStartsWith n0 "#" then "hashtag" else "general",
              0⟩ : TagRow)] m = 0 := by
          by_cases h : (n0 == m) = true <;>
            simp [tagCountL, List.filter_cons, h]
        rw [this]
        omega
      · intro m hm
        simp only [List.any_append, Bool.or_eq_true]
        exact Or.inl hm
  obtain ⟨db1, heq, hnd1, hpres1, htags1, hassoc1, htc1, hmono1⟩ := step
  rw [heq]
  by_cases ha : (articleId, n0) ∈ db1.articleTags
  · rw [if_pos ha]
    refine ⟨hnd1, ?_, ?_, ?_, hpres1, ?_⟩
    · intro t ht
      exact ⟨t, htags1 t ht, rfl⟩
    · intro p hp
      rw [hassoc1]
      exact hp
    · intro m hm
      exact hmono1 m hm
    · intro m
      simp only [tagCount, assocCount, htc1, hassoc1]
  · rw [if_neg ha]
    have hmapname :
        (db1.tags.map (incTag n0)).map TagRow.name =
          db1.tags.map TagRow.name := by
      rw [List.map_map]
      exact List.map_congr_left fun t _ => incTag_name n0 t
    refine ⟨?_, ?_, ?_, ?_, ?_, ?_⟩
    · simpa [hmapname] using hnd1
    · intro t ht
      exact ⟨incTag n0 t, List.mem_map_of_mem _ (htags1 t ht),
        incTag_name n0 t⟩
    · intro p hp
      show p ∈ db1.articleTags ++ [(articleId, n0)]
      rw [hassoc1]
      exact List.mem_append_left _ hp
    · intro m hm
      have h1 := hmono1 m hm
      simp only [hasTag, List.any_map]
      have : ((fun t => t.name == m) ∘ incTag n0) =
          fun t => t.name == m := by
        funext t
        simp [Function.comp, incTag_name]
      rw [this]
      exact h1
    · simp only [hasTag, List.any_map]
      have : ((fun t => t.name == n0) ∘ incTag n0) =
          fun t => t.name == n0 := by
        funext t
        simp [Function.comp, incTag_name]
      rw [this]
      exact hpres1
    · intro m
      simp only [tagCount, assocCount, hassoc1]
      rw [tagCountL_map_inc, htc1,
        assocCount_append_one]
      by_cases hm : m = n0
      · subst hm
        rw [filter_name_one m db1.tags hnd1 hpres1]
        simp
        omega
      · have : ¬ (n0 = m) := fun h => hm h.symm
        simp [hm, this]

/-- `addTags` over a whole name list, by folding the step lemma. -/
theorem addTags_go (articleId : Nat) :
    ∀ (names : List String) (db : TagDb),
      (db.tags.map TagRow.name).Nodup →
      ((Article.addTags db articleId names).tags.map TagRow.name).Nodup
      ∧ (∀ t ∈ db.tags,
          ∃ t' ∈ (Article.addTags db articleId names).tags,
            t'.name = t.name)
      ∧ (∀ p ∈ db.articleTags,
          p ∈ (Article.addTags db articleId names).articleTags)
      ∧ (∀ m, hasTag db m = true →
          hasTag (Article.addTags db articleId names) m = true)
      ∧ (∀ n ∈ names,
          hasTag (Article.addTags db articleId names) n = true)
      ∧ (∀ m, tagCount (Article.addTags db articleId names) m
            + assocCount db m
          = tagCount db m
            + assocCount (Article.addTags db articleId names) m) := by
  intro names
  induction names with
  | nil =>
    intro db hnd
    simp only [Article.addTags, List.foldl_nil]
    exact ⟨hnd, fun t ht => ⟨t, ht, rfl⟩, fun p hp => hp,
      fun m hm => hm, fun n hn => absurd hn (List.not_mem_nil n),
      fun m => by trivial⟩
  | cons n0 rest ih =>
    intro db hnd
    obtain ⟨s1, s2, s3, s4, s5, s6⟩ := addTagStep_spec articleId db n0 hnd
    have hfold : Article.addTags db articleId (n0 :: rest)
        = Article.addTags (addTagStep articleId db n0) articleId rest :=
      rfl
    rw [hfold]
    obtain ⟨i1, i2, i3, i4, i5, i6⟩ := ih (addTagStep articleId db n0) s1
    refine ⟨i1, ?_, ?_, ?_, ?_, ?_⟩
    · intro t ht
      obtain ⟨t1, ht1, hn1⟩ := s2 t ht
      obtain ⟨t2, ht2, hn2⟩ := i2 t1 ht1
      exact ⟨t2, ht2, by rw [hn2, hn1]⟩
    · intro p hp
      exact i3 p (s3 p hp)
    · intro m hm
      exact i4 m (s4 m hm)
    · intro n hn
      rcases List.mem_cons.mp hn with rfl | hn'
      · exact i4 n s5
      · exact i5 n hn'
    · intro m
      have h1 := s6 m
      have h2 := i6 m
      omega

/-- C9: `Article.addTags` creates each named tag on first use and never
deletes a tag or an existing association, and every new article-tag
association it creates increments the associated tag's usage counter —
for every name, the counter's rise equals the number of new
associations for that name (the trigger fires exactly on the `ON
CONFLICT DO NOTHING` inserts that actually insert). -/
theorem addTags_usage_counter (db : TagDb) (articleId : Nat)
    (names : List String)
    (hnd : (db.tags.map TagRow.name).Nodup) :
    (∀ n ∈ names,
      hasTag (Article.addTags db articleId names) n = true)
    ∧ (∀ t ∈ db.tags,
        ∃ t' ∈ (Article.addTags db articleId names).tags,
          t'.name = t.name)
    ∧ (∀ p ∈ db.articleTags,
        p ∈ (Article.addTags db articleId names).articleTags)
    ∧ (∀ m, tagCount (Article.addTags db articleId names) m
          + assocCount db m
        = tagCount db m
          + assocCount (Article.addTags db articleId names) m) := by
  obtain ⟨_, h2, h3, _, h5, h6⟩ := addTags_go articleId names db hnd
  exact ⟨h5, h2, h3, h6⟩

/-- Witness for C9: attaching a hashtag and a plain tag to article 1 in
an empty database. -/
theorem addTags_usage_counter_witness :
    (∀ n ∈ ["#a", "b"],
      hasTag (Article.addTags ⟨[], []⟩ 1 ["#a", "b"]) n = true)
    ∧ (∀ t ∈ (⟨[], []⟩ : TagDb).tags,
        ∃ t' ∈ (Article.addTags ⟨[], []⟩ 1 ["#a", "b"]).tags,
          t'.name = t.name)
    ∧ (∀ p ∈ (⟨[], []⟩ : TagDb).articleTags,
        p ∈ (Article.addTags ⟨[], []⟩ 1 ["#a", "b"]).articleTags)
    ∧ (∀ m, tagCount (Article.addTags ⟨[], []⟩ 1 ["#a", "b"]) m
          + assocCount ⟨[], []⟩ m
        = tagCount ⟨[], []⟩ m
          + assocCount (Article.addTags ⟨[], []⟩ 1 ["#a", "b"]) m) :=
  addTags_usage_counter ⟨[], []⟩ 1 ["#a", "b"] (by simp)

end Baldwin
